import Mathlib

/-!
# The run driver of the Graph Splitting method (`src/main.cpp`)

`main` parses the options `-s -h -v -e N -r N`, reads a similarity matrix,
runs the base clustering (`GS`), renders it (`sc2nwk`) and, when `ep_num > 0`,
runs `ep_num` Edge Perturbation trials (`EP`) on one shared tally and one
random generator before annotating the tree (`addEP`).

Only `main.cpp` is part of the sources.  The functions it declares `extern`
(`readMAT`, `sc2nwk`, `addEP`, `GS`, `EP`, `transitivity`, `print_banner`,
`print_usage`), the C and C++ library (`getopt`, `mt19937`, `random_device`,
`uniform_real_distribution`, the file stream) and the types they exchange are
parameters of the embedding.  What `main` does is recorded as a trace of
events: one event per collaborator call and per output statement, in program
order, together with the way the run ended.

Two places of `main` leave the behaviour to the platform, and the embedding
keeps both visible.  The generator `mt` is declared inside the `if`/`else` block
of lines 187-195 while `R` keeps `ref(mt)`: every later `R()` reads the storage
of an object whose lifetime has ended, and what that storage holds at a read is
a parameter (`stale`).  The counter of `for(int n=1; n<=ep_num; n++)` overflows
`int` when `ep_num = 2^31 - 1`: the run then never reaches the statements after
the loop, and the embedding ends its trace at the overflow.
-/

namespace GSM

/-! ## C library pieces used by the option loop -/

/-- The value of the two's-complement 32-bit `int` that holds `v`. -/
def toInt32 (v : Int) : Int := (v + 2147483648) % 4294967296 - 2147483648

/-- C `isspace` in the "C" locale. -/
def isspace (c : Char) : Bool :=
  c = ' ' || c = '\t' || c = '\n' || c = '\x0b' || c = '\x0c' || c = '\r'

/-- The number written by the leading decimal digits of `cs`, continuing from `acc`. -/
def digitsValue : List Char → Nat → Nat
  | [], acc => acc
  | c :: cs, acc => if c.isDigit then digitsValue cs (10 * acc + (c.toNat - 48)) else acc

/-- The value `strtol` returns for the number `v`: `v` itself when a 64-bit
`long` holds it, else `LONG_MAX` or `LONG_MIN`. -/
def toLong (v : Int) : Int :=
  if v > 9223372036854775807 then 9223372036854775807
  else if v < -9223372036854775808 then -9223372036854775808
  else v

/-- C `atoi` as the C library computes it, `(int) strtol(s, NULL, 10)`: skip
white space, read an optional sign and the leading digits, stop at the first
other character; the number is held in a 64-bit `long` (saturating) and then
reduced to the 32 bits of an `int`. -/
def atoi (s : String) : Int :=
  match s.toList.dropWhile isspace with
  | '-' :: cs => toInt32 (toLong (-(digitsValue cs 0 : Int)))
  | '+' :: cs => toInt32 (toLong (digitsValue cs 0))
  | cs => toInt32 (toLong (digitsValue cs 0))

/-- `regex_match(optarg, renum)` for `regex renum(R"(^[\d\.]+$)")`, `main.cpp` line 51:
the whole text is one or more characters, each a decimal digit or a dot. -/
def renum (optarg : String) : Bool :=
  !optarg.toList.isEmpty && optarg.toList.all (fun c => c.isDigit || c = '.')

/-- One return of `getopt(argc, argv, "shve:r:")` other than `-1`: the value
returned, and the values it leaves in `optarg` and `optopt`. -/
structure Getopt where
  opt : Char
  optarg : String
  optopt : Char

/-- The three option variables of `main`, lines 45-47. -/
structure Settings where
  silence : Int
  ep_num : Int
  seed : Int

/-- The ways `main` returns before any file is opened: `reject text` is
`print_banner(); cerr << text; print_usage(argv[0]); return -1;` (for example
lines 59-62), `help` is `print_banner(); print_usage(argv[0]); return 0;` (lines
77-79) and `version` is `print_banner(); return 0;` (lines 82-83). -/
inductive Stop where
  | reject (text : String)
  | help
  | version

/-- The body of the `getopt` loop, lines 54-107, for one option: the updated
option variables, or the `return` taken. -/
def optStep (argv0 : String) (o : Settings) (g : Getopt) : Except Stop Settings :=
  if g.opt = 'e' then
    if renum g.optarg then .ok { o with ep_num := atoi g.optarg }
    else .error (.reject "Option -e requires an integer argument.\n\n")
  else if g.opt = 'r' then
    if renum g.optarg then .ok { o with seed := atoi g.optarg }
    else .error (.reject "Option -r requires an integer argument.\n\n")
  else if g.opt = 'h' then .error .help
  else if g.opt = 'v' then .error .version
  else if g.opt = 's' then .ok { o with silence := 1 }
  else if g.opt = '?' then
    if g.optopt = 'e' then .error (.reject "Option -e requires an integer argument.\n\n")
    else if g.optopt = 'r' then .error (.reject "Option -r requires an integer argument.\n\n")
    else .error (.reject (argv0 ++ ": invalid option\n\n"))
  else .ok o

/-- The `while ((opt = getopt(...)) != -1)` loop, lines 53-108, over the
successive returns of `getopt`, from the option variables `o`. -/
def optLoop (argv0 : String) : Settings → List Getopt → Except Stop Settings
  | o, [] => .ok o
  | o, g :: gs =>
    match optStep argv0 o g with
    | .error r => .error r
    | .ok o' => optLoop argv0 o' gs

/-! ## Trace of a run -/

/-- The storage `R` refers to through `ref(mt)` once the block that declares
`mt` is closed: `mt` is what the constructor or the last `R()` wrote there, and
`reads` counts the calls of `R()` made so far. -/
structure Store (Gen : Type) where
  reads : Nat
  mt : Gen

/-- What `main` does, one event per collaborator call or output statement.
`mt19937` is the construction of the generator with its seed value; `EP`
records the matrix, the tally and the size it is called with, and the storage
that `R` refers to at the call; `R` records one call of `R()` made by the
running trial and the value it returned. -/
inductive Event (Mat Res Tal Gen Val : Type) where
  | print_banner
  | print_usage (argv0 : String)
  | cerr (text : String)
  | cout (text : String)
  | readMAT (file : String)
  | transitivity (W : Mat) (size : Int)
  | GS (W : Mat) (size : Int)
  | sc2nwk (gs : Res) (size : Int)
  | random_device
  | mt19937 (seed : Nat)
  | EP (W : Mat) (ep : Tal) (mt : Store Gen) (size : Int)
  | R (value : Val)
  | addEP (newick : String) (ep : Tal) (ep_num : Int) (size : Int)

/-- How a run ends: `main` returns a code; or a collaborator throws and, `main`
having no handler, the process is terminated; or the loop counter `n` of line
199 is incremented at `n = 2^31 - 1`: the `int` overflows (with the usual
wrap-around `n <= ep_num` stays true and the loop goes on without end), and the
statements after the loop are never reached. -/
inductive Status where
  | returned (code : Int)
  | aborted
  | overflow
  deriving DecidableEq

/-- How the trial loop ends: the loop condition fails and the loop is left with
the tally `ep` and the generator storage `mt`; or a trial throws; or the counter
overflows. -/
inductive LoopEnd (Tal Gen : Type) where
  | exit (ep : Tal) (mt : Store Gen)
  | thrown
  | overflow

/-- A run of `main`: its trace and the way it ended. -/
structure Run (Mat Res Tal Gen Val : Type) where
  trace : List (Event Mat Res Tal Gen Val)
  status : Status

/-- One Edge Perturbation trial as seen from the driver: it returns leaving the
tally `ep`, or throws, or calls `R()` and goes on with the value it gets. -/
inductive Trial (Val Tal : Type) where
  | done (ep : Tal)
  | throw
  | draw (k : Val → Trial Val Tal)

/-- The collaborators of `main`.  A result `none` is a call that throws.
`fail file` is `ifs1.fail()` for the stream opened on `file`; `show_score` is
the text `cerr << transitivity_score` writes; `empty` is the default-constructed
`unordered_map`; `mt19937 s` is the generator seeded with `s`; `urd` is one call
`urd(mt)`: the value drawn and the generator state left. -/
structure Collab (Mat Res Tal Gen Val Sc : Type) where
  fail : String → Bool
  readMAT : String → Option (Mat × Int)
  transitivity : Mat → Int → Option Sc
  show_score : Sc → String
  GS : Mat → Int → Option Res
  sc2nwk : Res → Int → Option String
  empty : Tal
  mt19937 : Nat → Gen
  urd : Gen → Val × Gen
  EP : Mat → Tal → Int → Trial Val Tal
  addEP : String → Tal → Int → Int → Option String

section Driver

variable {Mat Res Tal Gen Val Sc : Type}

/-- One call `R()` with `R = bind(urd, ref(mt))`, made after the block of `mt`
is closed (every call is: the first one is at line 201).  The object behind the
reference is no longer alive; `stale i mt` is what its storage holds at read
number `i` when `mt` was last written there (`stale i mt = mt` where the
storage is left alone, as a plain build does).  `urd` draws from what is read
and the new state is written back. -/
def callR (X : Collab Mat Res Tal Gen Val Sc) (stale : Nat → Gen → Gen) (st : Store Gen) :
    Val × Store Gen :=
  ((X.urd (stale st.reads st.mt)).1, ⟨st.reads + 1, (X.urd (stale st.reads st.mt)).2⟩)

/-- Run a trial against `R`, given as the step `R` from the state behind it to
the value drawn and the state left: the tally left (`none` if the trial
throws), the state left, and the values drawn. -/
def runTrial {G : Type} (R : G → Val × G) : Trial Val Tal → G → Option Tal × G × List Val
  | .done ep, mt => (some ep, mt, [])
  | .throw, mt => (none, mt, [])
  | .draw k, mt =>
    let r := runTrial R (k (R mt).1) (R mt).2
    (r.1, r.2.1, (R mt).1 :: r.2.2)

/-- The statements guarded by `if(!silence)`. -/
def diag (o : Settings) (es : List (Event Mat Res Tal Gen Val)) : List (Event Mat Res Tal Gen Val) :=
  if o.silence = 0 then es else []

/-- The run that ends at a `return` before any file is opened. -/
def Stop.run (argv0 : String) : Stop → Run Mat Res Tal Gen Val
  | .reject text => ⟨[.print_banner, .cerr text, .print_usage argv0], .returned (-1)⟩
  | .help => ⟨[.print_banner, .print_usage argv0], .returned 0⟩
  | .version => ⟨[.print_banner], .returned 0⟩

/-- The `-Input` and `-EP method` settings written when not silent, lines 145-163. -/
def settingsText (show_score : Sc → String) (o : Settings) (input : String) (size : Int)
    (score : Sc) : List (Event Mat Res Tal Gen Val) :=
  diag o
    [.print_banner,
     .cerr "Settings:\n",
     .cerr "-Input\n",
     .cerr ("  File = " ++ input ++ "\n"),
     .cerr ("  # of sequences = " ++ toString size ++ "\n\n"),
     .cerr ("  Transitivity = " ++ show_score score ++ "\n\n"),
     .cerr "-EP method\n",
     .cerr (if o.seed > 0 then "  Random seed = " ++ toString o.seed ++ "\n"
            else "  Random seed = a random number (default)\n"),
     .cerr ("  # of iterations = " ++ toString o.ep_num ++ "\n\n"),
     .cerr "Progress:\n"]

/-- The loop `for(int n=1; n<=ep_num; n++)`, lines 199-205, from counter value
`n` with `left` iterations to go (`left = ep_num - n + 1`, so the loop
condition holds exactly while `left > 0`).  Each iteration writes the progress
line and calls `EP(W, ep, R, size)`; `ep` and the storage behind `R` are what
the previous iteration left.  After the call comes `n++`: at `n = 2^31 - 1` the
counter overflows and the loop is not left.  The result is the events of the
loop and the way it ends. -/
def epLoop (X : Collab Mat Res Tal Gen Val Sc) (stale : Nat → Gen → Gen) (o : Settings)
    (W : Mat) (size : Int) :
    Nat → Int → Tal → Store Gen → List (Event Mat Res Tal Gen Val) × LoopEnd Tal Gen
  | 0, _, ep, mt => ([], .exit ep mt)
  | left + 1, n, ep, mt =>
    let r := runTrial (callR X stale) (X.EP W ep size) mt
    let head : List (Event Mat Res Tal Gen Val) :=
      diag o [.cerr ("  " ++ toString n ++ "/" ++ toString o.ep_num ++ " iterations\r")]
        ++ [.EP W ep mt size] ++ r.2.2.map .R
    match r.1 with
    | none => (head, .thrown)
    | some ep' =>
      if n = 2147483647 then (head, .overflow)
      else
        let rest := epLoop X stale o W size left (n + 1) ep' r.2.1
        (head ++ rest.1, rest.2)

/-- The generator behind `R`, lines 183-195: constructed with `seed` when
`seed > 0`, else with the value `rd` read from `random_device`.  The result is
the events of the block and the storage of `mt` as the block leaves it: the
closing brace ends the lifetime of `mt`, and `R` goes on referring to that
storage. -/
def makeR (X : Collab Mat Res Tal Gen Val Sc) (rd : Nat) (o : Settings) :
    List (Event Mat Res Tal Gen Val) × Store Gen :=
  if o.seed > 0 then
    ([.mt19937 (o.seed.toNat % 4294967296)], ⟨0, X.mt19937 (o.seed.toNat % 4294967296)⟩)
  else ([.random_device, .mt19937 rd], ⟨0, X.mt19937 rd⟩)

/-- The tree output, lines 178-224, given the base tree text `newick`. -/
def epStage (X : Collab Mat Res Tal Gen Val Sc) (rd : Nat) (stale : Nat → Gen → Gen)
    (o : Settings) (W : Mat) (size : Int) (newick : String) : Run Mat Res Tal Gen Val :=
  if o.ep_num > 0 then
    let g := makeR X rd o
    let l := epLoop X stale o W size o.ep_num.toNat 1 X.empty g.2
    let pre := g.1 ++ diag o [.cerr "-EP method\n"] ++ l.1
    match l.2 with
    | .thrown => ⟨pre, .aborted⟩
    | .overflow => ⟨pre, .overflow⟩
    | .exit ep _ =>
      let pre2 := pre ++ diag o [.cerr "\n  done.\n\n"]
        ++ diag o [.cerr "------------------------------------------\n\n"]
        ++ [.addEP newick ep o.ep_num size]
      match X.addEP newick ep o.ep_num size with
      | none => ⟨pre2, .aborted⟩
      | some newick_EP => ⟨pre2 ++ [.cout (newick_EP ++ "\n")], .returned 0⟩
  else
    ⟨diag o [.cerr "------------------------------------------\n\n"] ++ [.cout (newick ++ "\n")],
     .returned 0⟩

/-- Lines 122-229 of `main`: the run on the file `input` with the option
variables `o`. -/
def body (X : Collab Mat Res Tal Gen Val Sc) (rd : Nat) (stale : Nat → Gen → Gen)
    (o : Settings) (input : String) : Run Mat Res Tal Gen Val :=
  if X.fail input then ⟨[.cerr ("\nCannot access " ++ input ++ "!\n")], .returned (-1)⟩
  else
    match X.readMAT input with
    | none => ⟨[.readMAT input], .aborted⟩
    | some (W, size) =>
      match X.transitivity W size with
      | none => ⟨[.readMAT input, .transitivity W size], .aborted⟩
      | some score =>
        let pre : List (Event Mat Res Tal Gen Val) :=
          [.readMAT input, .transitivity W size]
            ++ settingsText X.show_score o input size score
            ++ diag o [.cerr "-GS method\n  executing...\r"] ++ [.GS W size]
        match X.GS W size with
        | none => ⟨pre, .aborted⟩
        | some gs =>
          let pre2 := pre ++ diag o [.cerr "  done.         \n\n"] ++ [.sc2nwk gs size]
          match X.sc2nwk gs size with
          | none => ⟨pre2, .aborted⟩
          | some newick =>
            let r := epStage X rd stale o W size newick
            ⟨pre2 ++ r.trace, r.status⟩

/-- The program `main`, lines 42-230.  `steps` are the returns `getopt` delivers
one after another for the command line (the loop stops asking at the first one
that ends the run), `input` is `argv[optind]` when `optind < argc`, `rd` is the
value `random_device` would deliver, and `stale` is what the storage of the
generator holds at each read made after its block is closed. -/
def main (X : Collab Mat Res Tal Gen Val Sc) (rd : Nat) (stale : Nat → Gen → Gen)
    (argv0 : String) (steps : List Getopt) (input : Option String) :
    Run Mat Res Tal Gen Val :=
  match optLoop argv0 ⟨0, 0, 0⟩ steps with
  | .error stop => stop.run argv0
  | .ok o =>
    match input with
    | none => Stop.run argv0 (.reject (argv0 ++ " requires an input file (matrix).\n\n"))
    | some file => body X rd stale o file

/-! ## What a trace shows -/

/-- The arguments of one call `EP(W, ep, R, size)`; `mt` is the storage behind
`R` when the call is made. -/
structure EPCall (Mat Tal Gen : Type) where
  W : Mat
  ep : Tal
  mt : Store Gen
  size : Int

/-- The text written to standard output, in order. -/
def stdout (t : List (Event Mat Res Tal Gen Val)) : String :=
  (t.filterMap (fun e => match e with | .cout s => some s | _ => none)).foldr (· ++ ·) ""

/-- The calls of `EP`, in order. -/
def epCalls (t : List (Event Mat Res Tal Gen Val)) : List (EPCall Mat Tal Gen) :=
  t.filterMap (fun e => match e with | .EP W ep mt size => some ⟨W, ep, mt, size⟩ | _ => none)

/-- The calls of `addEP`, in order: base tree text, tally, trials, size. -/
def addEPCalls (t : List (Event Mat Res Tal Gen Val)) : List (String × Tal × Int × Int) :=
  t.filterMap (fun e => match e with | .addEP nw ep k n => some (nw, ep, k, n) | _ => none)

/-- The seed values the generator is constructed with, in order. -/
def seeds (t : List (Event Mat Res Tal Gen Val)) : List Nat :=
  t.filterMap (fun e => match e with | .mt19937 s => some s | _ => none)

/-- The values returned by the calls of `R()`, in order. -/
def drawn (t : List (Event Mat Res Tal Gen Val)) : List Val :=
  t.filterMap (fun e => match e with | .R v => some v | _ => none)

/-- Whether the event is a call into the matrix reader or the clustering core. -/
def Event.isCore : Event Mat Res Tal Gen Val → Bool
  | .readMAT _ => true
  | .GS _ _ => true
  | .sc2nwk _ _ => true
  | .EP _ _ _ _ => true
  | .addEP _ _ _ _ => true
  | _ => false

/-- Whether the event is a read of the entropy device. -/
def Event.isEntropy : Event Mat Res Tal Gen Val → Bool
  | .random_device => true
  | _ => false

/-- The outcome of the trial started by the call `c`: the tally it leaves
(`none` if it throws), the generator storage it leaves, the values it draws. -/
def EPCall.outcome (X : Collab Mat Res Tal Gen Val Sc) (stale : Nat → Gen → Gen)
    (c : EPCall Mat Tal Gen) : Option Tal × Store Gen × List Val :=
  runTrial (callR X stale) (X.EP c.W c.ep c.size) c.mt

/-- The first `m` values of the stream that the step `urd` delivers from the
generator state `mt`. -/
def stream (urd : Gen → Val × Gen) : Gen → Nat → List Val
  | _, 0 => []
  | mt, m + 1 => (urd mt).1 :: stream urd (urd mt).2 m

end Driver

/-! ## Sample collaborators

Small concrete collaborators on which the driver can be evaluated: matrices,
clustering results, generator states and drawn values are numbers, the tally is
the list of the values drawn so far. -/

/-- The storage of a generator that is left alone after the end of its lifetime:
every read finds what was last written. -/
def intact {Gen : Type} : Nat → Gen → Gen := fun _ mt => mt

/-- A storage that is overwritten with the state `junk` before read number `at_read`. -/
def overwritten {Gen : Type} (at_read : Nat) (junk : Gen) : Nat → Gen → Gen :=
  fun i mt => if i = at_read then junk else mt

/-- A trial of the sample `EP`: the trial number `failAt` (the one started on a
tally of `failAt - 1` values) throws, every other one draws one value and appends
it to the tally.  With `failAt = 0` no trial throws. -/
def sampleEP (failAt : Nat) (_W : Nat) (ep : List Nat) (_size : Int) : Trial Nat (List Nat) :=
  if ep.length + 1 = failAt then .throw else .draw (fun v => .done (ep ++ [v]))

/-- Sample collaborators.  The file `missing.mat` cannot be opened, the matrix
of `bad.mat` makes `GS` throw, and the trial number `failAt` throws. -/
def sample (failAt : Nat) : Collab Nat Nat (List Nat) Nat Nat Nat where
  fail := fun file => file == "missing.mat"
  readMAT := fun file => if file == "bad.mat" then some (0, 3) else some (7, 3)
  transitivity := fun W _ => some (W + 1)
  show_score := fun s => toString s
  GS := fun W _ => if W = 0 then none else some (W + 1)
  sc2nwk := fun _ _ => some "((1,2),3);"
  empty := []
  mt19937 := fun s => s
  urd := fun mt => (mt % 10, mt + 1)
  EP := sampleEP failAt
  addEP := fun nw ep k _ => some (nw ++ toString ep ++ "/" ++ toString k)



/-! ## Words of the claims -/

/-- A `-` sign followed by one or more decimal digits. -/
def isNegativeNumeral (s : String) : Bool :=
  match s.toList with
  | '-' :: d :: ds => (d :: ds).all Char.isDigit
  | _ => false

/-- A non-empty text of decimal digits only. -/
def isDecimalNumeral (s : String) : Bool :=
  !s.toList.isEmpty && s.toList.all Char.isDigit

/-- The number a text of decimal digits denotes. -/
def numeralValue (s : String) : Nat :=
  s.toList.foldl (fun n c => 10 * n + (c.toNat - 48)) 0

/-- Modelled from the spec: the `BinaryTree` of section 3 (the result type of
the missing `GS`): a leaf carrying its 0-based index, or an internal node with
exactly two children. -/
inductive BinaryTree where
  | leaf (i : Nat)
  | node (l r : BinaryTree)

/-- Modelled from the spec: the minimum leaf index cached in a `ClusterNode`
(section 3), used to order children. -/
def BinaryTree.minLeaf : BinaryTree → Nat
  | .leaf i => i
  | .node l r => min l.minLeaf r.minLeaf

/-- Modelled from the spec: the divisive loop of SplitEngine (section 4.1,
steps 2-5; the missing `GS` of `gs.cpp`) on the cluster `C`.  The spectral
bipartition with its balanced fallback is the parameter `part`; a side left
empty is the `DegenerateInputError`; a side of size 1 becomes a leaf.  `fuel`
bounds the depth of the splitting. -/
def specSplit {Mat : Type} (part : Mat → List Nat → List Nat × List Nat) (W : Mat) :
    Nat → List Nat → Option BinaryTree
  | _, [i] => some (.leaf i)
  | 0, _ => none
  | fuel + 1, C =>
    if (part W C).1.isEmpty || (part W C).2.isEmpty then none
    else
      match specSplit part W fuel (part W C).1, specSplit part W fuel (part W C).2 with
      | some l, some r => some (.node l r)
      | _, _ => none

/-- Modelled from the spec: SplitEngine `run(W, n)` (section 4.1; the missing
`GS`).  A matrix that is not symmetric or not finite (`valid W = false`) is the
`InputFormatError`; for `n ≤ 1` the splitting is skipped entirely and the result
is a single-leaf tree; else the cluster of all `n` leaves is split. -/
def specGS {Mat : Type} (valid : Mat → Bool) (part : Mat → List Nat → List Nat × List Nat)
    (W : Mat) (n : Int) : Option BinaryTree :=
  if !valid W then none
  else if n ≤ 1 then some (.leaf 0)
  else specSplit part W n.toNat (List.range n.toNat)

/-- Modelled from the spec: the parenthesized leaf list of TreeBuilder (section
4.2): children ordered by the minimum leaf index of their subtrees, smaller
first; leaves written with their 1-based numbers. -/
def specRenderNode : BinaryTree → String
  | .leaf i => toString (i + 1)
  | .node l r =>
    if l.minLeaf ≤ r.minLeaf then "(" ++ specRenderNode l ++ "," ++ specRenderNode r ++ ")"
    else "(" ++ specRenderNode r ++ "," ++ specRenderNode l ++ ")"

/-- Modelled from the spec: TreeBuilder `render(tree)` (section 4.2; the missing
`sc2nwk` of `format.cpp`): the leaf list terminated by a semicolon. -/
def specRender (t : BinaryTree) : String := specRenderNode t ++ ";"

/-- Modelled from the spec: the support value of section 4.4,
`round(100 * count / trials)`, to the nearest integer. -/
def specSupport (count trials : Nat) : Nat := (200 * count + trials) / (2 * trials)

/-- Modelled from the spec: the text scan of SupportAnnotator (section 4.4; the
missing `addEP` of `format.cpp`).  `open` holds the leaves read so far of each
clade whose parenthesis is open, innermost first, and `num` the leaf number
being read.  At a closing parenthesis the clade is complete: its leaves join the
enclosing clade, and unless it is the root (no parenthesis stays open) the
support of its sorted leaf set is written right after the parenthesis. -/
def specScan (tally : List Nat → Nat) (trials : Nat) :
    List Char → List (List Nat) → Option Nat → List Char
  | [], _, _ => []
  | c :: cs, opened, num =>
    if c.isDigit then
      c :: specScan tally trials cs opened (some (10 * num.getD 0 + (c.toNat - 48)))
    else
      let opened1 : List (List Nat) :=
        match num, opened with
        | some v, S :: rest => (v :: S) :: rest
        | _, _ => opened
      if c = '(' then c :: specScan tally trials cs ([] :: opened1) none
      else if c = ')' then
        match opened1 with
        | S :: T :: rest =>
          c :: (toString (specSupport (tally (S.mergeSort (· ≤ ·))) trials)).toList
            ++ specScan tally trials cs ((S ++ T) :: rest) none
        | _ => c :: specScan tally trials cs [] none
      else c :: specScan tally trials cs opened1 none

/-- Modelled from the spec: SupportAnnotator `annotate(baseText, tally, trials,
n)` (section 4.4; the missing `addEP`): the base text with a support label
after the closing parenthesis of every internal node but the root. -/
def specAnnotate (baseText : String) (tally : List Nat → Nat) (trials : Int) (_n : Int) :
    String :=
  String.mk (specScan tally trials.toNat baseText.toList [] none)

/-- The collaborators `X` with the clustering core modelled from the
specification: `GS` is SplitEngine, `sc2nwk` is TreeBuilder, `addEP` is
SupportAnnotator and the empty tally counts 0 for every clade.  The matrix
reader, the transitivity score, the random generator and the perturbation trial
stay those of `X`. -/
def specCollab {Mat Gen Val Sc : Type} (valid : Mat → Bool)
    (part : Mat → List Nat → List Nat × List Nat)
    (X : Collab Mat BinaryTree (List Nat → Nat) Gen Val Sc) :
    Collab Mat BinaryTree (List Nat → Nat) Gen Val Sc :=
  { X with
    GS := specGS valid part
    sc2nwk := fun t _ => some (specRender t)
    empty := fun _ => 0
    addEP := fun text tally trials n => some (specAnnotate text tally trials n) }

/-- Sample collaborators around the modelled core: the file holds one
sequence, and a trial draws one value and leaves the tally as it is.  The
entries for `GS`, `sc2nwk` and `addEP` are replaced by `specCollab`. -/
def sampleReader : Collab Nat BinaryTree (List Nat → Nat) Nat Nat Nat where
  fail := fun _ => false
  readMAT := fun _ => some (7, 1)
  transitivity := fun _ _ => some 1
  show_score := fun s => toString s
  GS := fun _ _ => none
  sc2nwk := fun _ _ => none
  empty := fun _ => 0
  mt19937 := fun s => s
  urd := fun mt => (mt % 10, mt + 1)
  EP := fun _ ep _ => .draw (fun _ => .done ep)
  addEP := fun _ _ _ _ => none

/-! ## Lemmas on traces -/

section Lemmas

variable {Mat Res Tal Gen Val Sc : Type}

theorem stdout_nil : stdout ([] : List (Event Mat Res Tal Gen Val)) = "" := rfl

theorem stdout_append (a b : List (Event Mat Res Tal Gen Val)) :
    stdout (a ++ b) = stdout a ++ stdout b := by
  induction a with
  | nil => simp [stdout]
  | cons e a ih =>
    unfold stdout at ih ⊢
    cases e <;> simp_all [List.filterMap_cons, String.append_assoc]

theorem epCalls_append (a b : List (Event Mat Res Tal Gen Val)) :
    epCalls (a ++ b) = epCalls a ++ epCalls b := by
  simp [epCalls, List.filterMap_append]

theorem addEPCalls_append (a b : List (Event Mat Res Tal Gen Val)) :
    addEPCalls (a ++ b) = addEPCalls a ++ addEPCalls b := by
  simp [addEPCalls, List.filterMap_append]

theorem seeds_append (a b : List (Event Mat Res Tal Gen Val)) :
    seeds (a ++ b) = seeds a ++ seeds b := by
  simp [seeds, List.filterMap_append]

theorem seeds_diag_cerr (o : Settings) (s : String) :
    seeds (diag o [(.cerr s : Event Mat Res Tal Gen Val)]) = [] := by
  unfold diag; split <;> simp [seeds]

theorem seeds_settingsText (f : Sc → String) (o : Settings) (input : String) (size : Int)
    (score : Sc) :
    seeds (settingsText f o input size score : List (Event Mat Res Tal Gen Val)) = [] := by
  unfold settingsText diag; split <;> simp [seeds]

theorem drawn_append (a b : List (Event Mat Res Tal Gen Val)) :
    drawn (a ++ b) = drawn a ++ drawn b := by
  simp [drawn, List.filterMap_append]

/-- Diagnostic statements write nothing to standard output and call nothing. -/
theorem stdout_diag_cerr (o : Settings) (s : String) :
    stdout (diag o [(.cerr s : Event Mat Res Tal Gen Val)]) = "" := by
  unfold diag; split <;> simp [stdout]

theorem epCalls_diag_cerr (o : Settings) (s : String) :
    epCalls (diag o [(.cerr s : Event Mat Res Tal Gen Val)]) = [] := by
  unfold diag; split <;> simp [epCalls]

theorem addEPCalls_diag_cerr (o : Settings) (s : String) :
    addEPCalls (diag o [(.cerr s : Event Mat Res Tal Gen Val)]) = [] := by
  unfold diag; split <;> simp [addEPCalls]

theorem drawn_diag_cerr (o : Settings) (s : String) :
    drawn (diag o [(.cerr s : Event Mat Res Tal Gen Val)]) = [] := by
  unfold diag; split <;> simp [drawn]

theorem stdout_settingsText (f : Sc → String) (o : Settings) (input : String) (size : Int)
    (score : Sc) :
    stdout (settingsText f o input size score : List (Event Mat Res Tal Gen Val)) = "" := by
  unfold settingsText diag; split <;> simp [stdout]

theorem epCalls_settingsText (f : Sc → String) (o : Settings) (input : String) (size : Int)
    (score : Sc) :
    epCalls (settingsText f o input size score : List (Event Mat Res Tal Gen Val)) = [] := by
  unfold settingsText diag; split <;> simp [epCalls]

theorem addEPCalls_settingsText (f : Sc → String) (o : Settings) (input : String) (size : Int)
    (score : Sc) :
    addEPCalls (settingsText f o input size score : List (Event Mat Res Tal Gen Val)) = [] := by
  unfold settingsText diag; split <;> simp [addEPCalls]

theorem drawn_settingsText (f : Sc → String) (o : Settings) (input : String) (size : Int)
    (score : Sc) :
    drawn (settingsText f o input size score : List (Event Mat Res Tal Gen Val)) = [] := by
  unfold settingsText diag; split <;> simp [drawn]

/-- The run once the options are read, the file is open and the base tree is
rendered: the events up to `sc2nwk`, then the tree output. -/
theorem main_reaches_output (X : Collab Mat Res Tal Gen Val Sc) (stale : Nat → Gen → Gen) (rd : Nat) (argv0 : String)
    (steps : List Getopt) (file : String) (o : Settings) (W : Mat) (size : Int) (score : Sc)
    (gs : Res) (newick : String)
    (hopt : optLoop argv0 ⟨0, 0, 0⟩ steps = .ok o)
    (hfile : X.fail file = false) (hmat : X.readMAT file = some (W, size))
    (hsc : X.transitivity W size = some score) (hgs : X.GS W size = some gs)
    (hnwk : X.sc2nwk gs size = some newick) :
    main X rd stale argv0 steps (some file) =
      ⟨[.readMAT file, .transitivity W size] ++ settingsText X.show_score o file size score
          ++ diag o [.cerr "-GS method\n  executing...\r"] ++ [.GS W size]
          ++ diag o [.cerr "  done.         \n\n"] ++ [.sc2nwk gs size]
          ++ (epStage X rd stale o W size newick).trace,
       (epStage X rd stale o W size newick).status⟩ := by
  simp [main, hopt, body, hfile, hmat, hsc, hgs, hnwk]

/-! ### The trial loop -/

theorem epLoop_zero (X : Collab Mat Res Tal Gen Val Sc) (stale : Nat → Gen → Gen)
    (o : Settings) (W : Mat) (size : Int) (n : Int) (ep : Tal) (mt : Store Gen) :
    epLoop X stale o W size 0 n ep mt = ([], .exit ep mt) := rfl

/-- One iteration whose trial throws: the loop ends there. -/
theorem epLoop_succ_throw (X : Collab Mat Res Tal Gen Val Sc) (stale : Nat → Gen → Gen)
    (o : Settings) (W : Mat) (size : Int) (left : Nat) (n : Int) (ep : Tal) (mt : Store Gen)
    (h : (runTrial (callR X stale) (X.EP W ep size) mt).1 = none) :
    epLoop X stale o W size (left + 1) n ep mt =
        (diag o [.cerr ("  " ++ toString n ++ "/" ++ toString o.ep_num ++ " iterations\r")]
          ++ [.EP W ep mt size]
          ++ (runTrial (callR X stale) (X.EP W ep size) mt).2.2.map .R, .thrown) := by
  simp [epLoop, h]

/-- One iteration at the largest counter value: the increment overflows. -/
theorem epLoop_succ_overflow (X : Collab Mat Res Tal Gen Val Sc) (stale : Nat → Gen → Gen)
    (o : Settings) (W : Mat) (size : Int) (left : Nat) (n : Int) (ep ep' : Tal)
    (mt : Store Gen) (h : (runTrial (callR X stale) (X.EP W ep size) mt).1 = some ep')
    (hn : n = 2147483647) :
    epLoop X stale o W size (left + 1) n ep mt =
        (diag o [.cerr ("  " ++ toString n ++ "/" ++ toString o.ep_num ++ " iterations\r")]
          ++ [.EP W ep mt size]
          ++ (runTrial (callR X stale) (X.EP W ep size) mt).2.2.map .R, .overflow) := by
  simp [epLoop, h, hn]

/-- One iteration whose trial returns: the loop goes on from what it left. -/
theorem epLoop_succ_done (X : Collab Mat Res Tal Gen Val Sc) (stale : Nat → Gen → Gen)
    (o : Settings) (W : Mat) (size : Int) (left : Nat) (n : Int) (ep ep' : Tal)
    (mt : Store Gen) (h : (runTrial (callR X stale) (X.EP W ep size) mt).1 = some ep')
    (hn : n ≠ 2147483647) :
    epLoop X stale o W size (left + 1) n ep mt =
        (diag o [.cerr ("  " ++ toString n ++ "/" ++ toString o.ep_num ++ " iterations\r")]
          ++ [.EP W ep mt size] ++ (runTrial (callR X stale) (X.EP W ep size) mt).2.2.map .R
          ++ (epLoop X stale o W size left (n + 1) ep'
                (runTrial (callR X stale) (X.EP W ep size) mt).2.1).1,
         (epLoop X stale o W size left (n + 1) ep'
                (runTrial (callR X stale) (X.EP W ep size) mt).2.1).2) := by
  simp [epLoop, h, hn]

theorem epCalls_map_R (vs : List Val) :
    epCalls (vs.map .R : List (Event Mat Res Tal Gen Val)) = [] := by
  induction vs with
  | nil => rfl
  | cons v vs ih => simp [epCalls]

theorem addEPCalls_map_R (vs : List Val) :
    addEPCalls (vs.map .R : List (Event Mat Res Tal Gen Val)) = [] := by
  induction vs with
  | nil => rfl
  | cons v vs ih => simp [addEPCalls]

theorem seeds_map_R (vs : List Val) :
    seeds (vs.map .R : List (Event Mat Res Tal Gen Val)) = [] := by
  induction vs with
  | nil => rfl
  | cons v vs ih => simp [seeds]

theorem stdout_map_R (vs : List Val) :
    stdout (vs.map .R : List (Event Mat Res Tal Gen Val)) = "" := by
  induction vs with
  | nil => rfl
  | cons v vs ih => simpa [stdout] using ih

theorem drawn_map_R (vs : List Val) :
    drawn (vs.map .R : List (Event Mat Res Tal Gen Val)) = vs := by
  induction vs with
  | nil => rfl
  | cons v vs ih => simpa [drawn] using ih

theorem addEPCalls_EP (W : Mat) (ep : Tal) (mt : Store Gen) (size : Int) :
    addEPCalls [(.EP W ep mt size : Event Mat Res Tal Gen Val)] = [] := rfl

theorem stdout_EP (W : Mat) (ep : Tal) (mt : Store Gen) (size : Int) :
    stdout [(.EP W ep mt size : Event Mat Res Tal Gen Val)] = "" := rfl

theorem seeds_EP (W : Mat) (ep : Tal) (mt : Store Gen) (size : Int) :
    seeds [(.EP W ep mt size : Event Mat Res Tal Gen Val)] = [] := rfl

theorem epCalls_EP (W : Mat) (ep : Tal) (mt : Store Gen) (size : Int) :
    epCalls [(.EP W ep mt size : Event Mat Res Tal Gen Val)] = [⟨W, ep, mt, size⟩] := rfl

/-- The calls of `EP` made by the loop: the first one on the tally and storage
the loop starts with, then those of the rest of the loop if the trial returns
and the counter can be incremented. -/
theorem epCalls_epLoop_succ (X : Collab Mat Res Tal Gen Val Sc) (stale : Nat → Gen → Gen)
    (o : Settings) (W : Mat) (size : Int) (left : Nat) (n : Int) (ep : Tal) (mt : Store Gen) :
    epCalls (epLoop X stale o W size (left + 1) n ep mt).1
      = ⟨W, ep, mt, size⟩ ::
        (match (runTrial (callR X stale) (X.EP W ep size) mt).1 with
         | none => []
         | some ep' =>
           if n = 2147483647 then []
           else epCalls (epLoop X stale o W size left (n + 1) ep'
              (runTrial (callR X stale) (X.EP W ep size) mt).2.1).1) := by
  cases h : (runTrial (callR X stale) (X.EP W ep size) mt).1 with
  | none =>
    rw [epLoop_succ_throw X stale o W size left n ep mt h]
    simp only [epCalls_append, epCalls_diag_cerr, epCalls_map_R, epCalls_EP,
      List.nil_append, List.append_nil, List.singleton_append]
  | some ep' =>
    by_cases hn : n = 2147483647
    · rw [epLoop_succ_overflow X stale o W size left n ep ep' mt h hn]
      simp only [epCalls_append, epCalls_diag_cerr, epCalls_map_R, epCalls_EP,
        List.nil_append, List.append_nil, List.singleton_append, hn, if_true]
    · rw [epLoop_succ_done X stale o W size left n ep ep' mt h hn]
      simp only [epCalls_append, epCalls_diag_cerr, epCalls_map_R, epCalls_EP,
        List.nil_append, List.append_nil, List.singleton_append, hn, if_false]

/-- Every call made by the loop is on the matrix and size the loop was given. -/
theorem epLoop_calls_args (X : Collab Mat Res Tal Gen Val Sc) (stale : Nat → Gen → Gen)
    (o : Settings) (W : Mat) (size : Int) (left : Nat) (n : Int) (ep : Tal) (mt : Store Gen) :
    ∀ c ∈ epCalls (epLoop X stale o W size left n ep mt).1, c.W = W ∧ c.size = size := by
  induction left generalizing n ep mt with
  | zero => simp [epLoop_zero, epCalls]
  | succ left ih =>
    rw [epCalls_epLoop_succ]
    intro c hc
    rcases List.mem_cons.1 hc with h | h
    · subst h; exact ⟨rfl, rfl⟩
    · cases hr : (runTrial (callR X stale) (X.EP W ep size) mt).1 with
      | none => rw [hr] at h; simp at h
      | some ep' =>
        rw [hr] at h
        by_cases hn : n = 2147483647
        · simp [hn] at h
        · simp only [hn, if_false] at h
          exact ih _ _ _ c h

/-- The first call made by the loop is on the tally and the storage the loop
starts with. -/
theorem epLoop_calls_first (X : Collab Mat Res Tal Gen Val Sc) (stale : Nat → Gen → Gen)
    (o : Settings) (W : Mat) (size : Int) (left : Nat) (n : Int) (ep : Tal) (mt : Store Gen)
    (c : EPCall Mat Tal Gen)
    (hc : (epCalls (epLoop X stale o W size left n ep mt).1)[0]? = some c) :
    c = ⟨W, ep, mt, size⟩ := by
  cases left with
  | zero => simp [epLoop_zero, epCalls] at hc
  | succ left =>
    rw [epCalls_epLoop_succ] at hc
    simpa using hc.symm

/-- Consecutive calls made by the loop: the later one is on the tally and the
storage that the earlier trial left. -/
theorem epLoop_calls_linked (X : Collab Mat Res Tal Gen Val Sc) (stale : Nat → Gen → Gen)
    (o : Settings) (W : Mat) (size : Int) (left : Nat) (n : Int) (ep : Tal) (mt : Store Gen) :
    ∀ (i : Nat) (c d : EPCall Mat Tal Gen),
      (epCalls (epLoop X stale o W size left n ep mt).1)[i]? = some c →
      (epCalls (epLoop X stale o W size left n ep mt).1)[i + 1]? = some d →
      (c.outcome X stale).1 = some d.ep ∧ (c.outcome X stale).2.1 = d.mt := by
  induction left generalizing n ep mt with
  | zero => intro i c d hc; simp [epLoop_zero, epCalls] at hc
  | succ left ih =>
    intro i c d hc hd
    rw [epCalls_epLoop_succ] at hc hd
    cases hr : (runTrial (callR X stale) (X.EP W ep size) mt).1 with
    | none => rw [hr] at hd; simp at hd
    | some ep' =>
      rw [hr] at hc hd
      by_cases hn : n = 2147483647
      · simp [hn] at hd
      · simp only [hn, if_false, List.getElem?_cons_succ] at hc hd
        cases i with
        | zero =>
          simp only [List.getElem?_cons_zero, Option.some.injEq] at hc
          subst hc
          have hfirst := epLoop_calls_first X stale o W size left (n + 1) ep' _ d hd
          subst hfirst
          exact ⟨hr, rfl⟩
        | succ i =>
          simp only [List.getElem?_cons_succ] at hc
          exact ih _ _ _ i c d hc hd

/-- A trial that throws is the last call of the loop, and the loop ends there. -/
theorem epLoop_throw_last (X : Collab Mat Res Tal Gen Val Sc) (stale : Nat → Gen → Gen)
    (o : Settings) (W : Mat) (size : Int) (left : Nat) (n : Int) (ep : Tal) (mt : Store Gen) :
    ∀ (i : Nat) (c : EPCall Mat Tal Gen),
      (epCalls (epLoop X stale o W size left n ep mt).1)[i]? = some c →
      (c.outcome X stale).1 = none →
      (epCalls (epLoop X stale o W size left n ep mt).1).length = i + 1
        ∧ (epLoop X stale o W size left n ep mt).2 = .thrown := by
  induction left generalizing n ep mt with
  | zero => intro i c hc; simp [epLoop_zero, epCalls] at hc
  | succ left ih =>
    intro i c hc hthrow
    rw [epCalls_epLoop_succ] at hc ⊢
    cases hr : (runTrial (callR X stale) (X.EP W ep size) mt).1 with
    | none =>
      rw [hr] at hc
      cases i with
      | zero => simp [epLoop_succ_throw X stale o W size left n ep mt hr]
      | succ i => simp at hc
    | some ep' =>
      rw [hr] at hc
      cases i with
      | zero =>
        simp only [List.getElem?_cons_zero, Option.some.injEq] at hc
        subst hc
        simp [EPCall.outcome, hr] at hthrow
      | succ i =>
        by_cases hn : n = 2147483647
        · simp [hn] at hc
        · simp only [hn, if_false, List.getElem?_cons_succ] at hc
          have h := ih _ _ _ i c hc hthrow
          rw [epLoop_succ_done X stale o W size left n ep ep' mt hr hn]
          simp [h.1, h.2, hn]

/-- A loop that is left has made exactly `left` calls and is left with what the
last trial left (with what it started with if `left = 0`). -/
theorem epLoop_exit (X : Collab Mat Res Tal Gen Val Sc) (stale : Nat → Gen → Gen)
    (o : Settings) (W : Mat) (size : Int) (left : Nat) (n : Int) (ep : Tal) (mt : Store Gen)
    (epK : Tal) (mtK : Store Gen)
    (h : (epLoop X stale o W size left n ep mt).2 = .exit epK mtK) :
    (epCalls (epLoop X stale o W size left n ep mt).1).length = left
      ∧ (left = 0 → epK = ep ∧ mtK = mt)
      ∧ ∀ c, (epCalls (epLoop X stale o W size left n ep mt).1)[left - 1]? = some c →
          (c.outcome X stale).1 = some epK ∧ (c.outcome X stale).2.1 = mtK := by
  induction left generalizing n ep mt with
  | zero =>
    simp only [epLoop_zero, LoopEnd.exit.injEq] at h
    simp [epLoop_zero, epCalls, h.1, h.2]
  | succ left ih =>
    cases hr : (runTrial (callR X stale) (X.EP W ep size) mt).1 with
    | none => rw [epLoop_succ_throw X stale o W size left n ep mt hr] at h; simp at h
    | some ep' =>
      by_cases hn : n = 2147483647
      · rw [epLoop_succ_overflow X stale o W size left n ep ep' mt hr hn] at h; simp at h
      · rw [epLoop_succ_done X stale o W size left n ep ep' mt hr hn] at h
        simp only at h
        have ih' := ih (n + 1) ep' _ h
        rw [epCalls_epLoop_succ, hr]
        simp only [hn, if_false]
        refine ⟨by simp [ih'.1], by simp, ?_⟩
        intro c hc
        cases left with
        | zero =>
          simp only [Nat.zero_add, Nat.sub_self, List.getElem?_cons_zero,
            Option.some.injEq] at hc
          subst hc
          have h0 := ih'.2.1 rfl
          simp [EPCall.outcome, hr, h0.1, h0.2]
        | succ left =>
          simp only [Nat.add_sub_cancel, List.getElem?_cons_succ] at hc
          exact ih'.2.2 c (by simpa using hc)

/-- When none of the trials the loop starts throws and the counter stays below
`2^31 - 1` at every increment, the loop is left. -/
theorem epLoop_returns (X : Collab Mat Res Tal Gen Val Sc) (stale : Nat → Gen → Gen)
    (o : Settings) (W : Mat) (size : Int) (left : Nat) (n : Int) (ep : Tal) (mt : Store Gen)
    (hret : ∀ c ∈ epCalls (epLoop X stale o W size left n ep mt).1,
      (c.outcome X stale).1 ≠ none)
    (hb : n + (left : Int) ≤ 2147483647) :
    ∃ epK mtK, (epLoop X stale o W size left n ep mt).2 = .exit epK mtK := by
  induction left generalizing n ep mt with
  | zero => exact ⟨ep, mt, rfl⟩
  | succ left ih =>
    rw [epCalls_epLoop_succ] at hret
    have hn : n ≠ 2147483647 := by push_cast at hb; omega
    cases hr : (runTrial (callR X stale) (X.EP W ep size) mt).1 with
    | none =>
      exact absurd hr (hret ⟨W, ep, mt, size⟩ (List.mem_cons_self _ _))
    | some ep' =>
      rw [hr] at hret
      simp only [hn, if_false] at hret
      rw [epLoop_succ_done X stale o W size left n ep ep' mt hr hn]
      exact ih (n + 1) ep' _ (fun c hc => hret c (List.mem_cons_of_mem _ hc))
        (by push_cast at hb ⊢; omega)

/-- When no trial throws and the last counter value is `2^31 - 1`, the loop ends
in the overflow of the counter. -/
theorem epLoop_overflows (X : Collab Mat Res Tal Gen Val Sc) (stale : Nat → Gen → Gen)
    (o : Settings) (W : Mat) (size : Int)
    (hEP : ∀ ep mt, (runTrial (callR X stale) (X.EP W ep size) mt).1 ≠ none)
    (left : Nat) (n : Int) (ep : Tal) (mt : Store Gen) (hleft : 0 < left)
    (hb : n + (left : Int) = 2147483648) :
    (epLoop X stale o W size left n ep mt).2 = .overflow := by
  induction left generalizing n ep mt with
  | zero => omega
  | succ left ih =>
    cases hr : (runTrial (callR X stale) (X.EP W ep size) mt).1 with
    | none => exact absurd hr (hEP ep mt)
    | some ep' =>
      by_cases hn : n = 2147483647
      · rw [epLoop_succ_overflow X stale o W size left n ep ep' mt hr hn]
      · rw [epLoop_succ_done X stale o W size left n ep ep' mt hr hn]
        exact ih (n + 1) ep' _ (by push_cast at hb; omega) (by push_cast at hb ⊢; omega)

/-- The loop neither calls `addEP`, nor constructs a generator, nor writes to
standard output. -/
theorem epLoop_quiet (X : Collab Mat Res Tal Gen Val Sc) (stale : Nat → Gen → Gen)
    (o : Settings) (W : Mat) (size : Int) (left : Nat) (n : Int) (ep : Tal) (mt : Store Gen) :
    addEPCalls (epLoop X stale o W size left n ep mt).1 = []
      ∧ stdout (epLoop X stale o W size left n ep mt).1 = ""
      ∧ seeds (epLoop X stale o W size left n ep mt).1 = [] := by
  induction left generalizing n ep mt with
  | zero => simp [epLoop_zero, addEPCalls, stdout, seeds]
  | succ left ih =>
    cases hr : (runTrial (callR X stale) (X.EP W ep size) mt).1 with
    | none =>
      rw [epLoop_succ_throw X stale o W size left n ep mt hr]
      simp only [addEPCalls_append, stdout_append, seeds_append, addEPCalls_diag_cerr,
        stdout_diag_cerr, seeds_diag_cerr, addEPCalls_map_R, stdout_map_R, seeds_map_R,
        addEPCalls_EP, stdout_EP, seeds_EP, List.append_nil, String.append_empty, and_self]
    | some ep' =>
      by_cases hn : n = 2147483647
      · rw [epLoop_succ_overflow X stale o W size left n ep ep' mt hr hn]
        simp only [addEPCalls_append, stdout_append, seeds_append, addEPCalls_diag_cerr,
          stdout_diag_cerr, seeds_diag_cerr, addEPCalls_map_R, stdout_map_R, seeds_map_R,
          addEPCalls_EP, stdout_EP, seeds_EP, List.append_nil, String.append_empty, and_self]
      · rw [epLoop_succ_done X stale o W size left n ep ep' mt hr hn]
        simp only [addEPCalls_append, stdout_append, seeds_append, addEPCalls_diag_cerr,
          stdout_diag_cerr, seeds_diag_cerr, addEPCalls_map_R, stdout_map_R, seeds_map_R,
          addEPCalls_EP, stdout_EP, seeds_EP, ih, List.append_nil, String.append_empty,
          and_self]

/-! ### The tree output and the whole run -/

theorem epStage_skip (X : Collab Mat Res Tal Gen Val Sc) (rd : Nat) (stale : Nat → Gen → Gen)
    (o : Settings) (W : Mat) (size : Int) (newick : String) (hk : ¬ 0 < o.ep_num) :
    epStage X rd stale o W size newick =
      ⟨diag o [.cerr "------------------------------------------\n\n"]
        ++ [.cout (newick ++ "\n")], .returned 0⟩ := by
  simp [epStage, hk]

theorem epStage_throw (X : Collab Mat Res Tal Gen Val Sc) (rd : Nat) (stale : Nat → Gen → Gen)
    (o : Settings) (W : Mat) (size : Int) (newick : String) (hk : 0 < o.ep_num)
    (hl : (epLoop X stale o W size o.ep_num.toNat 1 X.empty (makeR X rd o).2).2 = .thrown) :
    epStage X rd stale o W size newick =
      ⟨(makeR X rd o).1 ++ diag o [.cerr "-EP method\n"]
        ++ (epLoop X stale o W size o.ep_num.toNat 1 X.empty (makeR X rd o).2).1,
       .aborted⟩ := by
  simp [epStage, hk, hl]

theorem epStage_overflow (X : Collab Mat Res Tal Gen Val Sc) (rd : Nat)
    (stale : Nat → Gen → Gen) (o : Settings) (W : Mat) (size : Int) (newick : String)
    (hk : 0 < o.ep_num)
    (hl : (epLoop X stale o W size o.ep_num.toNat 1 X.empty (makeR X rd o).2).2 = .overflow) :
    epStage X rd stale o W size newick =
      ⟨(makeR X rd o).1 ++ diag o [.cerr "-EP method\n"]
        ++ (epLoop X stale o W size o.ep_num.toNat 1 X.empty (makeR X rd o).2).1,
       .overflow⟩ := by
  simp [epStage, hk, hl]

theorem epStage_addEP (X : Collab Mat Res Tal Gen Val Sc) (rd : Nat) (stale : Nat → Gen → Gen)
    (o : Settings) (W : Mat) (size : Int) (newick : String) (hk : 0 < o.ep_num) (ep : Tal)
    (mt : Store Gen)
    (hl : (epLoop X stale o W size o.ep_num.toNat 1 X.empty (makeR X rd o).2).2
      = .exit ep mt) :
    epStage X rd stale o W size newick =
      ⟨(makeR X rd o).1 ++ diag o [.cerr "-EP method\n"]
        ++ (epLoop X stale o W size o.ep_num.toNat 1 X.empty (makeR X rd o).2).1
        ++ diag o [.cerr "\n  done.\n\n"]
        ++ diag o [.cerr "------------------------------------------\n\n"]
        ++ [.addEP newick ep o.ep_num size]
        ++ (match X.addEP newick ep o.ep_num size with
            | none => []
            | some newick_EP => [.cout (newick_EP ++ "\n")]),
       match X.addEP newick ep o.ep_num size with
       | none => .aborted
       | some _ => .returned 0⟩ := by
  simp only [epStage, hk, hl, if_true]
  cases X.addEP newick ep o.ep_num size <;> simp

theorem epCalls_makeR (X : Collab Mat Res Tal Gen Val Sc) (rd : Nat) (o : Settings) :
    epCalls (makeR X rd o).1 = [] := by
  unfold makeR; split <;> rfl

theorem addEPCalls_makeR (X : Collab Mat Res Tal Gen Val Sc) (rd : Nat) (o : Settings) :
    addEPCalls (makeR X rd o).1 = [] := by
  unfold makeR; split <;> rfl

theorem drawn_makeR (X : Collab Mat Res Tal Gen Val Sc) (rd : Nat) (o : Settings) :
    drawn (makeR X rd o).1 = [] := by
  unfold makeR; split <;> rfl

theorem stdout_makeR (X : Collab Mat Res Tal Gen Val Sc) (rd : Nat) (o : Settings) :
    stdout (makeR X rd o).1 = "" := by
  unfold makeR; split <;> rfl

/-- With a positive seed the generator is constructed from the seed, and the
entropy device is not read. -/
theorem makeR_seeded (X : Collab Mat Res Tal Gen Val Sc) (rd : Nat) (o : Settings)
    (hseed : 0 < o.seed) :
    makeR X rd o = ([.mt19937 (o.seed.toNat % 4294967296)],
      ⟨0, X.mt19937 (o.seed.toNat % 4294967296)⟩) := by
  simp [makeR, hseed]

/-- The ways the trial loop of the tree output can end, with the run in each. -/
theorem epStage_cases (X : Collab Mat Res Tal Gen Val Sc) (rd : Nat) (stale : Nat → Gen → Gen)
    (o : Settings) (W : Mat) (size : Int) (newick : String) (hk : 0 < o.ep_num) :
    ((epLoop X stale o W size o.ep_num.toNat 1 X.empty (makeR X rd o).2).2 = .thrown
        ∧ epStage X rd stale o W size newick =
          ⟨(makeR X rd o).1 ++ diag o [.cerr "-EP method\n"]
            ++ (epLoop X stale o W size o.ep_num.toNat 1 X.empty (makeR X rd o).2).1,
           .aborted⟩)
      ∨ ((epLoop X stale o W size o.ep_num.toNat 1 X.empty (makeR X rd o).2).2 = .overflow
        ∧ epStage X rd stale o W size newick =
          ⟨(makeR X rd o).1 ++ diag o [.cerr "-EP method\n"]
            ++ (epLoop X stale o W size o.ep_num.toNat 1 X.empty (makeR X rd o).2).1,
           .overflow⟩)
      ∨ ∃ ep mt,
          (epLoop X stale o W size o.ep_num.toNat 1 X.empty (makeR X rd o).2).2 = .exit ep mt
          ∧ epStage X rd stale o W size newick =
            ⟨(makeR X rd o).1 ++ diag o [.cerr "-EP method\n"]
              ++ (epLoop X stale o W size o.ep_num.toNat 1 X.empty (makeR X rd o).2).1
              ++ diag o [.cerr "\n  done.\n\n"]
              ++ diag o [.cerr "------------------------------------------\n\n"]
              ++ [.addEP newick ep o.ep_num size]
              ++ (match X.addEP newick ep o.ep_num size with
                  | none => []
                  | some newick_EP => [.cout (newick_EP ++ "\n")]),
             match X.addEP newick ep o.ep_num size with
             | none => .aborted
             | some _ => .returned 0⟩ := by
  cases hl : (epLoop X stale o W size o.ep_num.toNat 1 X.empty (makeR X rd o).2).2 with
  | thrown => exact Or.inl ⟨rfl, epStage_throw X rd stale o W size newick hk hl⟩
  | overflow => exact Or.inr (Or.inl ⟨rfl, epStage_overflow X rd stale o W size newick hk hl⟩)
  | exit ep mt =>
    exact Or.inr (Or.inr ⟨ep, mt, rfl, epStage_addEP X rd stale o W size newick hk ep mt hl⟩)

/-- The calls of `EP` in the tree output are those of the trial loop. -/
theorem epCalls_epStage (X : Collab Mat Res Tal Gen Val Sc) (rd : Nat) (stale : Nat → Gen → Gen)
    (o : Settings) (W : Mat) (size : Int) (newick : String) :
    epCalls (epStage X rd stale o W size newick).trace =
      if 0 < o.ep_num then
        epCalls (epLoop X stale o W size o.ep_num.toNat 1 X.empty (makeR X rd o).2).1
      else [] := by
  by_cases hk : 0 < o.ep_num
  · rw [if_pos hk]
    rcases epStage_cases X rd stale o W size newick hk with ⟨_, h⟩ | ⟨_, h⟩ | ⟨ep, mt, _, h⟩
    · rw [h]
      simp only [epCalls_append, epCalls_makeR, epCalls_diag_cerr, List.nil_append]
    · rw [h]
      simp only [epCalls_append, epCalls_makeR, epCalls_diag_cerr, List.nil_append]
    · rw [h]
      simp only [epCalls_append, epCalls_makeR, epCalls_diag_cerr, List.nil_append,
        List.append_nil]
      cases X.addEP newick ep o.ep_num size <;> simp [epCalls]
  · rw [if_neg hk, epStage_skip X rd stale o W size newick hk]
    simp only [epCalls_append, epCalls_diag_cerr, List.nil_append]
    rfl

/-- The calls of `addEP` in the tree output: one, on the tally the loop is left
with, when `ep_num > 0` and the loop is left; none otherwise. -/
theorem addEPCalls_epStage (X : Collab Mat Res Tal Gen Val Sc) (rd : Nat)
    (stale : Nat → Gen → Gen) (o : Settings) (W : Mat) (size : Int) (newick : String) :
    addEPCalls (epStage X rd stale o W size newick).trace =
      if 0 < o.ep_num then
        match (epLoop X stale o W size o.ep_num.toNat 1 X.empty (makeR X rd o).2).2 with
        | .exit ep _ => [(newick, ep, o.ep_num, size)]
        | _ => []
      else [] := by
  by_cases hk : 0 < o.ep_num
  · rw [if_pos hk]
    rcases epStage_cases X rd stale o W size newick hk with ⟨hl, h⟩ | ⟨hl, h⟩ | ⟨ep, mt, hl, h⟩
    · rw [h, hl]
      simp only [addEPCalls_append, addEPCalls_makeR, addEPCalls_diag_cerr, List.nil_append,
        (epLoop_quiet X stale o W size _ _ _ _).1]
    · rw [h, hl]
      simp only [addEPCalls_append, addEPCalls_makeR, addEPCalls_diag_cerr, List.nil_append,
        (epLoop_quiet X stale o W size _ _ _ _).1]
    · rw [h, hl]
      simp only [addEPCalls_append, addEPCalls_makeR, addEPCalls_diag_cerr, List.nil_append,
        (epLoop_quiet X stale o W size _ _ _ _).1]
      cases X.addEP newick ep o.ep_num size <;> simp [addEPCalls]
  · rw [if_neg hk, epStage_skip X rd stale o W size newick hk]
    simp only [addEPCalls_append, addEPCalls_diag_cerr, List.nil_append]
    rfl

/-- The text the tree output writes: the result of `addEP` and a line end when
`ep_num > 0`, the loop is left and `addEP` returns; nothing when a trial or
`addEP` throws or the counter overflows; the base tree text and a line end when
`ep_num ≤ 0`. -/
theorem stdout_epStage (X : Collab Mat Res Tal Gen Val Sc) (rd : Nat) (stale : Nat → Gen → Gen)
    (o : Settings) (W : Mat) (size : Int) (newick : String) :
    stdout (epStage X rd stale o W size newick).trace =
      if 0 < o.ep_num then
        match (epLoop X stale o W size o.ep_num.toNat 1 X.empty (makeR X rd o).2).2 with
        | .exit ep _ =>
          (match X.addEP newick ep o.ep_num size with
           | none => ""
           | some newick_EP => newick_EP ++ "\n")
        | _ => ""
      else newick ++ "\n" := by
  by_cases hk : 0 < o.ep_num
  · rw [if_pos hk]
    rcases epStage_cases X rd stale o W size newick hk with ⟨hl, h⟩ | ⟨hl, h⟩ | ⟨ep, mt, hl, h⟩
    · rw [h, hl]
      simp only [stdout_append, stdout_makeR, stdout_diag_cerr,
        (epLoop_quiet X stale o W size _ _ _ _).2.1, String.append_empty]
    · rw [h, hl]
      simp only [stdout_append, stdout_makeR, stdout_diag_cerr,
        (epLoop_quiet X stale o W size _ _ _ _).2.1, String.append_empty]
    · rw [h, hl]
      simp only [stdout_append, stdout_makeR, stdout_diag_cerr,
        (epLoop_quiet X stale o W size _ _ _ _).2.1, String.append_empty]
      cases X.addEP newick ep o.ep_num size <;> simp [stdout]
  · rw [if_neg hk, epStage_skip X rd stale o W size newick hk]
    simp only [stdout_append, stdout_diag_cerr]
    simp [stdout]

/-- How the tree output ends. -/
theorem status_epStage (X : Collab Mat Res Tal Gen Val Sc) (rd : Nat) (stale : Nat → Gen → Gen)
    (o : Settings) (W : Mat) (size : Int) (newick : String) :
    (epStage X rd stale o W size newick).status =
      if 0 < o.ep_num then
        match (epLoop X stale o W size o.ep_num.toNat 1 X.empty (makeR X rd o).2).2 with
        | .thrown => .aborted
        | .overflow => .overflow
        | .exit ep _ =>
          (match X.addEP newick ep o.ep_num size with
           | none => .aborted
           | some _ => .returned 0)
      else .returned 0 := by
  by_cases hk : 0 < o.ep_num
  · rw [if_pos hk]
    rcases epStage_cases X rd stale o W size newick hk with ⟨hl, h⟩ | ⟨hl, h⟩ | ⟨ep, mt, hl, h⟩
    · rw [h, hl]
    · rw [h, hl]
    · rw [h, hl]
  · rw [if_neg hk, epStage_skip X rd stale o W size newick hk]

/-- The generators constructed in the tree output: none when `ep_num ≤ 0`, else
the one of the block of lines 187-195. -/
theorem seeds_epStage (X : Collab Mat Res Tal Gen Val Sc) (rd : Nat) (stale : Nat → Gen → Gen)
    (o : Settings) (W : Mat) (size : Int) (newick : String) :
    seeds (epStage X rd stale o W size newick).trace =
      if 0 < o.ep_num then seeds (makeR X rd o).1 else [] := by
  by_cases hk : 0 < o.ep_num
  · rw [if_pos hk]
    rcases epStage_cases X rd stale o W size newick hk with ⟨_, h⟩ | ⟨_, h⟩ | ⟨ep, mt, _, h⟩
    · rw [h]
      simp only [seeds_append, seeds_diag_cerr, (epLoop_quiet X stale o W size _ _ _ _).2.2,
        List.append_nil]
    · rw [h]
      simp only [seeds_append, seeds_diag_cerr, (epLoop_quiet X stale o W size _ _ _ _).2.2,
        List.append_nil]
    · rw [h]
      simp only [seeds_append, seeds_diag_cerr, (epLoop_quiet X stale o W size _ _ _ _).2.2,
        List.append_nil]
      cases X.addEP newick ep o.ep_num size <;> simp [seeds]
  · rw [if_neg hk, epStage_skip X rd stale o W size newick hk]
    simp only [seeds_append, seeds_diag_cerr, List.nil_append]
    rfl

/-- The run in which the base clustering throws. -/
theorem main_GS_throws (X : Collab Mat Res Tal Gen Val Sc) (stale : Nat → Gen → Gen) (rd : Nat) (argv0 : String)
    (steps : List Getopt) (file : String) (o : Settings) (W : Mat) (size : Int) (score : Sc)
    (hopt : optLoop argv0 ⟨0, 0, 0⟩ steps = .ok o)
    (hfile : X.fail file = false) (hmat : X.readMAT file = some (W, size))
    (hsc : X.transitivity W size = some score) (hgs : X.GS W size = none) :
    main X rd stale argv0 steps (some file) =
      ⟨[.readMAT file, .transitivity W size] ++ settingsText X.show_score o file size score
          ++ diag o [.cerr "-GS method\n  executing...\r"] ++ [.GS W size], .aborted⟩ := by
  simp [main, hopt, body, hfile, hmat, hsc, hgs]

/-- The run in which rendering the base tree throws. -/
theorem main_sc2nwk_throws (X : Collab Mat Res Tal Gen Val Sc) (stale : Nat → Gen → Gen) (rd : Nat) (argv0 : String)
    (steps : List Getopt) (file : String) (o : Settings) (W : Mat) (size : Int) (score : Sc)
    (gs : Res) (hopt : optLoop argv0 ⟨0, 0, 0⟩ steps = .ok o)
    (hfile : X.fail file = false) (hmat : X.readMAT file = some (W, size))
    (hsc : X.transitivity W size = some score) (hgs : X.GS W size = some gs)
    (hnwk : X.sc2nwk gs size = none) :
    main X rd stale argv0 steps (some file) =
      ⟨[.readMAT file, .transitivity W size] ++ settingsText X.show_score o file size score
          ++ diag o [.cerr "-GS method\n  executing...\r"] ++ [.GS W size]
          ++ diag o [.cerr "  done.         \n\n"] ++ [.sc2nwk gs size], .aborted⟩ := by
  simp [main, hopt, body, hfile, hmat, hsc, hgs, hnwk]

/-- What the trace of a run that reaches the tree output shows: the calls of
`EP` and `addEP`, the values drawn and the text on standard output are those of
the tree output. -/
theorem main_reaches_output_shows (X : Collab Mat Res Tal Gen Val Sc) (stale : Nat → Gen → Gen) (rd : Nat)
    (argv0 : String) (steps : List Getopt) (file : String) (o : Settings) (W : Mat)
    (size : Int) (score : Sc) (gs : Res) (newick : String)
    (hopt : optLoop argv0 ⟨0, 0, 0⟩ steps = .ok o)
    (hfile : X.fail file = false) (hmat : X.readMAT file = some (W, size))
    (hsc : X.transitivity W size = some score) (hgs : X.GS W size = some gs)
    (hnwk : X.sc2nwk gs size = some newick) :
    epCalls (main X rd stale argv0 steps (some file)).trace
        = epCalls (epStage X rd stale o W size newick).trace
      ∧ addEPCalls (main X rd stale argv0 steps (some file)).trace
        = addEPCalls (epStage X rd stale o W size newick).trace
      ∧ drawn (main X rd stale argv0 steps (some file)).trace
        = drawn (epStage X rd stale o W size newick).trace
      ∧ stdout (main X rd stale argv0 steps (some file)).trace
        = stdout (epStage X rd stale o W size newick).trace
      ∧ (main X rd stale argv0 steps (some file)).status
        = (epStage X rd stale o W size newick).status := by
  rw [main_reaches_output X stale rd argv0 steps file o W size score gs newick hopt hfile hmat hsc
    hgs hnwk]
  have e1 : epCalls [(.readMAT file : Event Mat Res Tal Gen Val), .transitivity W size] = [] :=
    rfl
  have e2 : epCalls [(.GS W size : Event Mat Res Tal Gen Val)] = [] := rfl
  have e3 : epCalls [(.sc2nwk gs size : Event Mat Res Tal Gen Val)] = [] := rfl
  have a1 : addEPCalls [(.readMAT file : Event Mat Res Tal Gen Val), .transitivity W size]
      = [] := rfl
  have a2 : addEPCalls [(.GS W size : Event Mat Res Tal Gen Val)] = [] := rfl
  have a3 : addEPCalls [(.sc2nwk gs size : Event Mat Res Tal Gen Val)] = [] := rfl
  have d1 : drawn [(.readMAT file : Event Mat Res Tal Gen Val), .transitivity W size] = [] :=
    rfl
  have d2 : drawn [(.GS W size : Event Mat Res Tal Gen Val)] = [] := rfl
  have d3 : drawn [(.sc2nwk gs size : Event Mat Res Tal Gen Val)] = [] := rfl
  have s1 : stdout [(.readMAT file : Event Mat Res Tal Gen Val), .transitivity W size] = "" :=
    rfl
  have s2 : stdout [(.GS W size : Event Mat Res Tal Gen Val)] = "" := rfl
  have s3 : stdout [(.sc2nwk gs size : Event Mat Res Tal Gen Val)] = "" := rfl
  refine ⟨?_, ?_, ?_, ?_, rfl⟩
  · simp only [epCalls_append, epCalls_settingsText, epCalls_diag_cerr, e1, e2, e3,
      List.nil_append]
  · simp only [addEPCalls_append, addEPCalls_settingsText, addEPCalls_diag_cerr, a1, a2, a3,
      List.nil_append]
  · simp only [drawn_append, drawn_settingsText, drawn_diag_cerr, d1, d2, d3, List.nil_append]
  · simp only [stdout_append, stdout_settingsText, stdout_diag_cerr, s1, s2, s3,
      String.append_empty, String.empty_append]

/-- A run that ends at a `return` of the option stage calls nothing and writes
nothing to standard output. -/
theorem Stop.run_shows (argv0 : String) (stop : Stop) :
    epCalls (stop.run argv0 : Run Mat Res Tal Gen Val).trace = []
      ∧ addEPCalls (stop.run argv0 : Run Mat Res Tal Gen Val).trace = []
      ∧ drawn (stop.run argv0 : Run Mat Res Tal Gen Val).trace = []
      ∧ stdout (stop.run argv0 : Run Mat Res Tal Gen Val).trace = "" := by
  cases stop <;> exact ⟨rfl, rfl, rfl, rfl⟩

/-- Every run either reaches the tree output, or makes no call of `EP` or
`addEP`, draws no value and writes nothing to standard output. -/
theorem main_cases (X : Collab Mat Res Tal Gen Val Sc) (stale : Nat → Gen → Gen) (rd : Nat) (argv0 : String)
    (steps : List Getopt) (input : Option String) :
    (epCalls (main X rd stale argv0 steps input).trace = []
      ∧ addEPCalls (main X rd stale argv0 steps input).trace = []
      ∧ drawn (main X rd stale argv0 steps input).trace = []
      ∧ stdout (main X rd stale argv0 steps input).trace = "")
    ∨ ∃ o file W size score gs newick,
        optLoop argv0 ⟨0, 0, 0⟩ steps = .ok o ∧ input = some file ∧ X.fail file = false
          ∧ X.readMAT file = some (W, size) ∧ X.transitivity W size = some score
          ∧ X.GS W size = some gs ∧ X.sc2nwk gs size = some newick := by
  cases hopt : optLoop argv0 ⟨0, 0, 0⟩ steps with
  | error stop =>
    left
    simp only [main, hopt]
    exact Stop.run_shows argv0 stop
  | ok o =>
    cases input with
    | none =>
      left
      simp only [main, hopt]
      exact Stop.run_shows argv0 _
    | some file =>
      cases hfile : X.fail file with
      | true =>
        left
        simp only [main, hopt, body, hfile, if_true]
        exact ⟨rfl, rfl, rfl, rfl⟩
      | false =>
        cases hmat : X.readMAT file with
        | none =>
          left
          simp only [main, hopt, body, hfile, hmat]
          exact ⟨rfl, rfl, rfl, rfl⟩
        | some p =>
          obtain ⟨W, size⟩ := p
          cases hsc : X.transitivity W size with
          | none =>
            left
            simp only [main, hopt, body, hfile, hmat, hsc]
            exact ⟨rfl, rfl, rfl, rfl⟩
          | some score =>
            cases hgs : X.GS W size with
            | none =>
              left
              rw [main_GS_throws X stale rd argv0 steps file o W size score hopt hfile hmat hsc hgs]
              have e1 : epCalls [(.readMAT file : Event Mat Res Tal Gen Val),
                .transitivity W size] = [] := rfl
              have e2 : epCalls [(.GS W size : Event Mat Res Tal Gen Val)] = [] := rfl
              have a1 : addEPCalls [(.readMAT file : Event Mat Res Tal Gen Val),
                .transitivity W size] = [] := rfl
              have a2 : addEPCalls [(.GS W size : Event Mat Res Tal Gen Val)] = [] := rfl
              have d1 : drawn [(.readMAT file : Event Mat Res Tal Gen Val),
                .transitivity W size] = [] := rfl
              have d2 : drawn [(.GS W size : Event Mat Res Tal Gen Val)] = [] := rfl
              have s1 : stdout [(.readMAT file : Event Mat Res Tal Gen Val),
                .transitivity W size] = "" := rfl
              have s2 : stdout [(.GS W size : Event Mat Res Tal Gen Val)] = "" := rfl
              refine ⟨?_, ?_, ?_, ?_⟩
              · simp only [epCalls_append, epCalls_settingsText, epCalls_diag_cerr, e1, e2,
                  List.nil_append]
              · simp only [addEPCalls_append, addEPCalls_settingsText, addEPCalls_diag_cerr,
                  a1, a2, List.nil_append]
              · simp only [drawn_append, drawn_settingsText, drawn_diag_cerr, d1, d2,
                  List.nil_append]
              · simp only [stdout_append, stdout_settingsText, stdout_diag_cerr, s1, s2,
                  String.append_empty]
            | some gs =>
              cases hnwk : X.sc2nwk gs size with
              | none =>
                left
                rw [main_sc2nwk_throws X stale rd argv0 steps file o W size score gs hopt hfile hmat
                  hsc hgs hnwk]
                have e1 : epCalls [(.readMAT file : Event Mat Res Tal Gen Val),
                  .transitivity W size] = [] := rfl
                have e2 : epCalls [(.GS W size : Event Mat Res Tal Gen Val)] = [] := rfl
                have e3 : epCalls [(.sc2nwk gs size : Event Mat Res Tal Gen Val)] = [] := rfl
                have a1 : addEPCalls [(.readMAT file : Event Mat Res Tal Gen Val),
                  .transitivity W size] = [] := rfl
                have a2 : addEPCalls [(.GS W size : Event Mat Res Tal Gen Val)] = [] := rfl
                have a3 : addEPCalls [(.sc2nwk gs size : Event Mat Res Tal Gen Val)] = [] :=
                  rfl
                have d1 : drawn [(.readMAT file : Event Mat Res Tal Gen Val),
                  .transitivity W size] = [] := rfl
                have d2 : drawn [(.GS W size : Event Mat Res Tal Gen Val)] = [] := rfl
                have d3 : drawn [(.sc2nwk gs size : Event Mat Res Tal Gen Val)] = [] := rfl
                have s1 : stdout [(.readMAT file : Event Mat Res Tal Gen Val),
                  .transitivity W size] = "" := rfl
                have s2 : stdout [(.GS W size : Event Mat Res Tal Gen Val)] = "" := rfl
                have s3 : stdout [(.sc2nwk gs size : Event Mat Res Tal Gen Val)] = "" := rfl
                refine ⟨?_, ?_, ?_, ?_⟩
                · simp only [epCalls_append, epCalls_settingsText, epCalls_diag_cerr, e1, e2,
                    e3, List.nil_append]
                · simp only [addEPCalls_append, addEPCalls_settingsText,
                    addEPCalls_diag_cerr, a1, a2, a3, List.nil_append]
                · simp only [drawn_append, drawn_settingsText, drawn_diag_cerr, d1, d2, d3,
                    List.nil_append]
                · simp only [stdout_append, stdout_settingsText, stdout_diag_cerr, s1, s2, s3,
                    String.append_empty]
              | some newick =>
                right
                exact ⟨o, file, W, size, score, gs, newick, rfl, rfl, hfile, hmat, hsc, hgs,
                  hnwk⟩

/-- Options other than `-e` leave `ep_num` as it is. -/
theorem optLoop_ep_num_kept (argv0 : String) (steps : List Getopt)
    (hno : ∀ g ∈ steps, g.opt ≠ 'e') (o o' : Settings)
    (h : optLoop argv0 o steps = .ok o') : o'.ep_num = o.ep_num := by
  induction steps generalizing o with
  | nil =>
    simp only [optLoop, Except.ok.injEq] at h
    rw [h]
  | cons g gs ih =>
    have hg : g.opt ≠ 'e' := hno g (List.mem_cons_self g gs)
    have hgs : ∀ g' ∈ gs, g'.opt ≠ 'e' := fun g' hg' => hno g' (List.mem_cons_of_mem g hg')
    simp only [optLoop] at h
    cases hs : optStep argv0 o g with
    | error stop => rw [hs] at h; simp at h
    | ok o1 =>
      rw [hs] at h
      have h1 : o1.ep_num = o.ep_num := by
        unfold optStep at hs
        simp only [hg, if_false] at hs
        split_ifs at hs <;> simp at hs <;> rw [← hs]
      rw [ih hgs o1 h, h1]

/-! ### The option loop -/

theorem optLoop_append (argv0 : String) (pre rest : List Getopt) (o : Settings) :
    optLoop argv0 o (pre ++ rest) =
      match optLoop argv0 o pre with
      | .error stop => .error stop
      | .ok o' => optLoop argv0 o' rest := by
  induction pre generalizing o with
  | nil => rfl
  | cons g gs ih =>
    simp only [List.cons_append, optLoop]
    cases optStep argv0 o g with
    | error stop => rfl
    | ok o1 => exact ih o1

/-- An `-e` whose argument the check refuses ends the option loop. -/
theorem optStep_e_refused (argv0 : String) (o : Settings) (arg : String) (oo : Char)
    (h : renum arg = false) :
    optStep argv0 o ⟨'e', arg, oo⟩
      = .error (.reject "Option -e requires an integer argument.\n\n") := by
  simp [optStep, h]

/-- An `-e` whose argument the check accepts sets `ep_num` to `atoi` of it. -/
theorem optStep_e_accepted (argv0 : String) (o : Settings) (arg : String) (oo : Char)
    (h : renum arg = true) :
    optStep argv0 o ⟨'e', arg, oo⟩ = .ok { o with ep_num := atoi arg } := by
  simp [optStep, h]

/-- An `-e` without argument ends the option loop. -/
theorem optStep_e_missing (argv0 : String) (o : Settings) (arg : String) :
    optStep argv0 o ⟨'?', arg, 'e'⟩
      = .error (.reject "Option -e requires an integer argument.\n\n") := by
  simp [optStep]

/-- The check refuses the empty text and every text with a character that is
neither a digit nor a dot. -/
theorem renum_refuses (arg : String)
    (h : arg.toList = [] ∨ ∃ c ∈ arg.toList, c.isDigit = false ∧ c ≠ '.') :
    renum arg = false := by
  unfold renum
  rcases h with h | ⟨c, hc, hd, hdot⟩
  · rw [h]; rfl
  · have : arg.toList.all (fun c => c.isDigit || c = '.') = false := by
      rw [List.all_eq_false]
      exact ⟨c, hc, by simp [hd, hdot]⟩
    rw [this, Bool.and_false]

/-- The check refuses every negative numeral. -/
theorem renum_refuses_negative (arg : String) (h : isNegativeNumeral arg = true) :
    renum arg = false := by
  apply renum_refuses
  right
  unfold isNegativeNumeral at h
  split at h
  · rename_i d ds heq
    exact ⟨'-', by rw [heq]; exact List.mem_cons_self _ _, by decide, by decide⟩
  · exact absurd h (by simp)

/-- The check accepts every decimal numeral. -/
theorem renum_accepts_numeral (arg : String) (h : isDecimalNumeral arg = true) :
    renum arg = true := by
  unfold isDecimalNumeral at h
  unfold renum
  simp only [Bool.and_eq_true, List.all_eq_true] at h ⊢
  refine ⟨h.1, fun c hc => ?_⟩
  simp [h.2 c hc]

theorem isspace_of_isDigit (c : Char) (h : c.isDigit = true) : isspace c = false := by
  by_contra hs
  simp only [isspace, Bool.not_eq_false, Bool.or_eq_true, decide_eq_true_eq] at hs
  rcases hs with ((((rfl | rfl) | rfl) | rfl) | rfl) | rfl <;> exact absurd h (by decide)

theorem digitsValue_eq_foldl (cs : List Char) (h : ∀ c ∈ cs, c.isDigit = true) (acc : Nat) :
    digitsValue cs acc = cs.foldl (fun n c => 10 * n + (c.toNat - 48)) acc := by
  induction cs generalizing acc with
  | nil => rfl
  | cons c cs ih =>
    have hc : c.isDigit = true := h c (List.mem_cons_self c cs)
    simp only [digitsValue, hc, if_true, List.foldl_cons]
    exact ih (fun d hd => h d (List.mem_cons_of_mem c hd)) _

theorem toInt32_of_small (v : Nat) (h : v < 2147483648) :
    toInt32 (toLong (v : Int)) = v := by
  have hl : toLong (v : Int) = v := by
    unfold toLong
    rw [if_neg (by omega), if_neg (by omega)]
  rw [hl]
  unfold toInt32
  omega

/-- On a decimal numeral below `2^31`, `atoi` is the number the numeral denotes. -/
theorem atoi_numeral (arg : String) (h : isDecimalNumeral arg = true)
    (hv : numeralValue arg < 2147483648) : atoi arg = (numeralValue arg : Int) := by
  unfold isDecimalNumeral at h
  simp only [Bool.and_eq_true, List.all_eq_true] at h
  unfold atoi numeralValue at *
  cases hcs : arg.toList with
  | nil => rw [hcs] at h; simp at h
  | cons c cs =>
    rw [hcs] at h hv
    have hc : c.isDigit = true := h.2 c (List.mem_cons_self c cs)
    have hsp : isspace c = false := isspace_of_isDigit c hc
    have hdrop : List.dropWhile isspace (c :: cs) = c :: cs := by
      simp [List.dropWhile, hsp]
    rw [hdrop]
    have hval := digitsValue_eq_foldl (c :: cs) h.2 0
    split
    · rename_i cs' heq
      have : c = '-' := by injection heq
      subst this
      exact absurd hc (by decide)
    · rename_i cs' heq
      have : c = '+' := by injection heq
      subst this
      exact absurd hc (by decide)
    · rename_i cs' _ _
      rw [hval]
      exact toInt32_of_small _ hv

theorem optLoop_refused_at (argv0 : String) (pre post : List Getopt) (g : Getopt)
    (o o' : Settings) (stop : Stop) (hpre : optLoop argv0 o pre = .ok o')
    (hg : optStep argv0 o' g = .error stop) :
    optLoop argv0 o (pre ++ g :: post) = .error stop := by
  rw [optLoop_append, hpre]
  simp only [optLoop, hg]

theorem optLoop_accepted_at (argv0 : String) (pre : List Getopt) (g : Getopt)
    (o o' o'' : Settings) (hpre : optLoop argv0 o pre = .ok o')
    (hg : optStep argv0 o' g = .ok o'') :
    optLoop argv0 o (pre ++ [g]) = .ok o'' := by
  rw [optLoop_append, hpre]
  simp only [optLoop, hg]

/-- An option that ends the loop wherever it is met ends every option loop
that holds it. -/
theorem optLoop_ends (argv0 : String) (pre post : List Getopt) (g : Getopt) (o : Settings)
    (hg : ∀ o', ∃ stop, optStep argv0 o' g = .error stop) :
    ∃ stop, optLoop argv0 o (pre ++ g :: post) = .error stop := by
  rw [optLoop_append]
  cases hpre : optLoop argv0 o pre with
  | error stop => exact ⟨stop, rfl⟩
  | ok o' =>
    obtain ⟨stop, hs⟩ := hg o'
    exact ⟨stop, by simp only [optLoop, hs]⟩

/-- A run that ends at a `return` of the option stage never enters the matrix
reader or the clustering core. -/
theorem Stop.run_no_core (argv0 : String) (stop : Stop) :
    (stop.run argv0 : Run Mat Res Tal Gen Val).trace.all (fun e => !e.isCore) = true := by
  cases stop <;> rfl

/-! ### The entropy device and the seed -/

theorem entropy_diag_cerr (o : Settings) (s : String) :
    (diag o [(.cerr s : Event Mat Res Tal Gen Val)]).any Event.isEntropy = false := by
  unfold diag; split <;> rfl

theorem entropy_settingsText (f : Sc → String) (o : Settings) (input : String) (size : Int)
    (score : Sc) :
    (settingsText f o input size score : List (Event Mat Res Tal Gen Val)).any Event.isEntropy
      = false := by
  unfold settingsText diag; split <;> rfl

theorem entropy_map_R (vs : List Val) :
    (vs.map .R : List (Event Mat Res Tal Gen Val)).any Event.isEntropy = false := by
  induction vs with
  | nil => rfl
  | cons v vs ih => simp [Event.isEntropy]

/-- The trial loop does not read the entropy device. -/
theorem entropy_epLoop (X : Collab Mat Res Tal Gen Val Sc) (stale : Nat → Gen → Gen)
    (o : Settings) (W : Mat) (size : Int) (left : Nat) (n : Int) (ep : Tal) (mt : Store Gen) :
    (epLoop X stale o W size left n ep mt).1.any Event.isEntropy = false := by
  induction left generalizing n ep mt with
  | zero => rfl
  | succ left ih =>
    have hEP : [(.EP W ep mt size : Event Mat Res Tal Gen Val)].any Event.isEntropy = false :=
      rfl
    cases hr : (runTrial (callR X stale) (X.EP W ep size) mt).1 with
    | none =>
      rw [epLoop_succ_throw X stale o W size left n ep mt hr]
      simp only [List.any_append, entropy_diag_cerr, entropy_map_R, hEP, Bool.or_false]
    | some ep' =>
      by_cases hn : n = 2147483647
      · rw [epLoop_succ_overflow X stale o W size left n ep ep' mt hr hn]
        simp only [List.any_append, entropy_diag_cerr, entropy_map_R, hEP, Bool.or_false]
      · rw [epLoop_succ_done X stale o W size left n ep ep' mt hr hn]
        simp only [List.any_append, entropy_diag_cerr, entropy_map_R, hEP, ih, Bool.or_false]

/-- With a positive seed the tree output does not read the entropy device. -/
theorem entropy_epStage (X : Collab Mat Res Tal Gen Val Sc) (rd : Nat) (stale : Nat → Gen → Gen)
    (o : Settings) (hseed : 0 < o.seed) (W : Mat) (size : Int) (newick : String) :
    (epStage X rd stale o W size newick).trace.any Event.isEntropy = false := by
  have hR : (makeR X rd o).1.any Event.isEntropy = false := by
    rw [makeR_seeded X rd o hseed]; rfl
  by_cases hk : 0 < o.ep_num
  · rcases epStage_cases X rd stale o W size newick hk with ⟨_, h⟩ | ⟨_, h⟩ | ⟨ep, mt, _, h⟩
    · rw [h]
      simp only [List.any_append, hR, entropy_diag_cerr, entropy_epLoop, Bool.or_false]
    · rw [h]
      simp only [List.any_append, hR, entropy_diag_cerr, entropy_epLoop, Bool.or_false]
    · rw [h]
      simp only [List.any_append, hR, entropy_diag_cerr, entropy_epLoop, Bool.or_false,
        Bool.false_or]
      cases X.addEP newick ep o.ep_num size <;> rfl
  · rw [epStage_skip X rd stale o W size newick hk]
    simp only [List.any_append, entropy_diag_cerr, Bool.false_or]
    rfl

/-- With a positive seed no run reads the entropy device. -/
theorem entropy_main (X : Collab Mat Res Tal Gen Val Sc) (rd : Nat) (stale : Nat → Gen → Gen)
    (argv0 : String) (steps : List Getopt) (input : Option String) (o : Settings)
    (hopt : optLoop argv0 ⟨0, 0, 0⟩ steps = .ok o) (hseed : 0 < o.seed) :
    (main X rd stale argv0 steps input).trace.any Event.isEntropy = false := by
  cases input with
  | none => simp only [main, hopt]; rfl
  | some file =>
    cases hfile : X.fail file with
    | true => simp only [main, hopt, body, hfile, if_true]; rfl
    | false =>
      cases hmat : X.readMAT file with
      | none => simp only [main, hopt, body, hfile, hmat]; rfl
      | some p =>
        obtain ⟨W, size⟩ := p
        have h1 : [(.readMAT file : Event Mat Res Tal Gen Val), .transitivity W size].any
            Event.isEntropy = false := rfl
        have h2 : [(.GS W size : Event Mat Res Tal Gen Val)].any Event.isEntropy = false := rfl
        cases hsc : X.transitivity W size with
        | none => simp only [main, hopt, body, hfile, hmat, hsc]; rfl
        | some score =>
          cases hgs : X.GS W size with
          | none =>
            rw [main_GS_throws X stale rd argv0 steps file o W size score hopt hfile hmat hsc
              hgs]
            simp only [List.any_append, h1, h2, entropy_settingsText, entropy_diag_cerr,
              Bool.or_false]
          | some gs =>
            have h3 : [(.sc2nwk gs size : Event Mat Res Tal Gen Val)].any Event.isEntropy
                = false := rfl
            cases hnwk : X.sc2nwk gs size with
            | none =>
              rw [main_sc2nwk_throws X stale rd argv0 steps file o W size score gs hopt hfile
                hmat hsc hgs hnwk]
              simp only [List.any_append, h1, h2, h3, entropy_settingsText, entropy_diag_cerr,
                Bool.or_false]
            | some newick =>
              rw [main_reaches_output X stale rd argv0 steps file o W size score gs newick hopt
                hfile hmat hsc hgs hnwk]
              simp only [List.any_append, h1, h2, h3, entropy_settingsText, entropy_diag_cerr,
                entropy_epStage X rd stale o hseed, Bool.or_false]

/-- A run constructs no generator, or the one of the block of lines 187-195. -/
theorem seeds_main (X : Collab Mat Res Tal Gen Val Sc) (rd : Nat) (stale : Nat → Gen → Gen)
    (argv0 : String) (steps : List Getopt) (input : Option String) (o : Settings)
    (hopt : optLoop argv0 ⟨0, 0, 0⟩ steps = .ok o) :
    seeds (main X rd stale argv0 steps input).trace = []
      ∨ seeds (main X rd stale argv0 steps input).trace = seeds (makeR X rd o).1 := by
  cases input with
  | none => left; simp only [main, hopt]; rfl
  | some file =>
    cases hfile : X.fail file with
    | true => left; simp only [main, hopt, body, hfile, if_true]; rfl
    | false =>
      cases hmat : X.readMAT file with
      | none => left; simp only [main, hopt, body, hfile, hmat]; rfl
      | some p =>
        obtain ⟨W, size⟩ := p
        have h1 : seeds [(.readMAT file : Event Mat Res Tal Gen Val), .transitivity W size]
            = [] := rfl
        have h2 : seeds [(.GS W size : Event Mat Res Tal Gen Val)] = [] := rfl
        cases hsc : X.transitivity W size with
        | none => left; simp only [main, hopt, body, hfile, hmat, hsc]; rfl
        | some score =>
          cases hgs : X.GS W size with
          | none =>
            left
            rw [main_GS_throws X stale rd argv0 steps file o W size score hopt hfile hmat hsc
              hgs]
            simp only [seeds_append, h1, h2, seeds_settingsText, seeds_diag_cerr,
              List.append_nil]
          | some gs =>
            have h3 : seeds [(.sc2nwk gs size : Event Mat Res Tal Gen Val)] = [] := rfl
            cases hnwk : X.sc2nwk gs size with
            | none =>
              left
              rw [main_sc2nwk_throws X stale rd argv0 steps file o W size score gs hopt hfile
                hmat hsc hgs hnwk]
              simp only [seeds_append, h1, h2, h3, seeds_settingsText, seeds_diag_cerr,
                List.append_nil]
            | some newick =>
              rw [main_reaches_output X stale rd argv0 steps file o W size score gs newick hopt
                hfile hmat hsc hgs hnwk]
              simp only [seeds_append, h1, h2, h3, seeds_settingsText, seeds_diag_cerr,
                List.append_nil, List.nil_append, seeds_epStage]
              by_cases hk : 0 < o.ep_num
              · right; rw [if_pos hk]
              · left; rw [if_neg hk]

/-! ### The transitivity score -/

/-- The run whose trial count is `2^31 - 1` and whose trials do not throw:
the counter overflows, `addEP` is not called and nothing is written to standard
output. -/
theorem main_overflows (X : Collab Mat Res Tal Gen Val Sc) (stale : Nat → Gen → Gen) (rd : Nat)
    (argv0 : String) (steps : List Getopt) (file : String) (o : Settings) (W : Mat)
    (size : Int) (score : Sc) (gs : Res) (newick : String)
    (hopt : optLoop argv0 ⟨0, 0, 0⟩ steps = .ok o) (hk : o.ep_num = 2147483647)
    (hfile : X.fail file = false) (hmat : X.readMAT file = some (W, size))
    (hsc : X.transitivity W size = some score) (hgs : X.GS W size = some gs)
    (hnwk : X.sc2nwk gs size = some newick)
    (hEP : ∀ ep mt, (runTrial (callR X stale) (X.EP W ep size) mt).1 ≠ none) :
    addEPCalls (main X rd stale argv0 steps (some file)).trace = []
      ∧ stdout (main X rd stale argv0 steps (some file)).trace = ""
      ∧ (main X rd stale argv0 steps (some file)).status = .overflow := by
  have hs := main_reaches_output_shows X stale rd argv0 steps file o W size score gs newick
    hopt hfile hmat hsc hgs hnwk
  have hpos : 0 < o.ep_num := by omega
  have hl := epLoop_overflows X stale o W size hEP o.ep_num.toNat 1 X.empty (makeR X rd o).2
    (by omega) (by omega)
  rw [hs.2.1, hs.2.2.2.1, hs.2.2.2.2, addEPCalls_epStage, stdout_epStage, status_epStage]
  simp only [hpos, if_true, hl, and_self]

end Lemmas

/-! ## The claims -/

section Claims

variable {Mat Res Tal Gen Val Sc : Type}

/-- C1. When the option loop leaves `ep_num = 0` (no `-e` option at all, or a
last `-e` value that `atoi` reads as 0) and the matrix file is opened, read,
clustered and rendered, `main` calls neither `EP` nor `addEP`, the text on
standard output is exactly the text of `sc2nwk` followed by the line end, and
`main` returns 0. -/
theorem c1_zero_trials_write_base_tree (X : Collab Mat Res Tal Gen Val Sc) (rd : Nat)
    (stale : Nat → Gen → Gen) (argv0 : String) (steps : List Getopt) (file : String) (o : Settings) (W : Mat)
    (size : Int) (score : Sc) (gs : Res) (newick : String)
    (hopt : optLoop argv0 ⟨0, 0, 0⟩ steps = .ok o)
    (hk : (∀ g ∈ steps, g.opt ≠ 'e') ∨ o.ep_num = 0)
    (hfile : X.fail file = false) (hmat : X.readMAT file = some (W, size))
    (hsc : X.transitivity W size = some score) (hgs : X.GS W size = some gs)
    (hnwk : X.sc2nwk gs size = some newick) :
    epCalls (main X rd stale argv0 steps (some file)).trace = []
      ∧ addEPCalls (main X rd stale argv0 steps (some file)).trace = []
      ∧ stdout (main X rd stale argv0 steps (some file)).trace = newick ++ "\n"
      ∧ (main X rd stale argv0 steps (some file)).status = .returned 0 := by
  have h0 : o.ep_num = 0 := by
    rcases hk with hno | h0
    · exact optLoop_ep_num_kept argv0 steps hno ⟨0, 0, 0⟩ o hopt
    · exact h0
  have hk' : ¬ 0 < o.ep_num := by omega
  have hs := main_reaches_output_shows X stale rd argv0 steps file o W size score gs newick hopt hfile
    hmat hsc hgs hnwk
  rw [hs.1, hs.2.1, hs.2.2.2.1, hs.2.2.2.2, epCalls_epStage, addEPCalls_epStage,
    stdout_epStage, status_epStage]
  simp only [hk', if_false, and_self]

/-- C2, as amended.  When the option loop leaves `ep_num = k` with
`0 < k < 2^31 - 1`, the base tree is rendered and none of the trials the run
starts throws, `main` calls `EP` exactly `k` times, each time on `W` and `size`;
the first call is on the empty tally and every later call is on the tally the
previous trial left; `addEP` is then called exactly once, on the base tree
text, the tally the `k`-th trial left, `k` and `size`; and when it returns, the
text on standard output is its result followed by the line end. -/
theorem c2_trials_share_one_tally (X : Collab Mat Res Tal Gen Val Sc) (rd : Nat)
    (stale : Nat → Gen → Gen) (argv0 : String) (steps : List Getopt) (file : String)
    (o : Settings) (W : Mat) (size : Int) (score : Sc) (gs : Res) (newick : String)
    (hopt : optLoop argv0 ⟨0, 0, 0⟩ steps = .ok o) (hk : 0 < o.ep_num)
    (hb : o.ep_num < 2147483647)
    (hfile : X.fail file = false) (hmat : X.readMAT file = some (W, size))
    (hsc : X.transitivity W size = some score) (hgs : X.GS W size = some gs)
    (hnwk : X.sc2nwk gs size = some newick)
    (hret : ∀ c ∈ epCalls (main X rd stale argv0 steps (some file)).trace,
      (c.outcome X stale).1 ≠ none) :
    ((epCalls (main X rd stale argv0 steps (some file)).trace).length : Int) = o.ep_num
      ∧ (∀ c ∈ epCalls (main X rd stale argv0 steps (some file)).trace,
          c.W = W ∧ c.size = size)
      ∧ (∀ c, (epCalls (main X rd stale argv0 steps (some file)).trace)[0]? = some c →
          c.ep = X.empty)
      ∧ (∀ (i : Nat) (c d : EPCall Mat Tal Gen),
          (epCalls (main X rd stale argv0 steps (some file)).trace)[i]? = some c →
          (epCalls (main X rd stale argv0 steps (some file)).trace)[i + 1]? = some d →
          (c.outcome X stale).1 = some d.ep)
      ∧ ∃ (c : EPCall Mat Tal Gen) (epK : Tal),
          (epCalls (main X rd stale argv0 steps (some file)).trace)[o.ep_num.toNat - 1]?
            = some c
          ∧ (c.outcome X stale).1 = some epK
          ∧ addEPCalls (main X rd stale argv0 steps (some file)).trace
              = [(newick, epK, o.ep_num, size)]
          ∧ ∀ newick_EP, X.addEP newick epK o.ep_num size = some newick_EP →
              stdout (main X rd stale argv0 steps (some file)).trace = newick_EP ++ "\n"
              ∧ (main X rd stale argv0 steps (some file)).status = .returned 0 := by
  have hs := main_reaches_output_shows X stale rd argv0 steps file o W size score gs newick
    hopt hfile hmat hsc hgs hnwk
  rw [hs.1, epCalls_epStage, if_pos hk] at hret
  obtain ⟨epK, mtK, hl⟩ :=
    epLoop_returns X stale o W size o.ep_num.toNat 1 X.empty (makeR X rd o).2 hret
      (by omega)
  have hx := epLoop_exit X stale o W size o.ep_num.toNat 1 X.empty (makeR X rd o).2 epK mtK hl
  rw [hs.1, hs.2.1, hs.2.2.2.1, hs.2.2.2.2, epCalls_epStage, addEPCalls_epStage,
    stdout_epStage, status_epStage]
  simp only [hk, if_true, hl]
  have hpos : 0 < o.ep_num.toNat := by omega
  refine ⟨?_, ?_, ?_, ?_, ?_⟩
  · rw [hx.1]; omega
  · exact epLoop_calls_args X stale o W size _ _ _ _
  · intro c hc
    rw [epLoop_calls_first X stale o W size _ _ _ _ c hc]
  · intro i c d hc hd
    exact (epLoop_calls_linked X stale o W size _ _ _ _ i c d hc hd).1
  · have hlt : o.ep_num.toNat - 1
        < (epCalls (epLoop X stale o W size o.ep_num.toNat 1 X.empty
            (makeR X rd o).2).1).length := by
      rw [hx.1]; omega
    refine ⟨(epCalls (epLoop X stale o W size o.ep_num.toNat 1 X.empty
      (makeR X rd o).2).1).get ⟨_, hlt⟩, epK, ?_, ?_, rfl, ?_⟩
    · exact List.getElem?_eq_getElem hlt
    · exact (hx.2.2 _ (List.getElem?_eq_getElem hlt)).1
    · intro newick_EP hadd
      simp [hadd]

/-- C3, as amended.  With a seed whose `int` value is positive, every run
constructs its generator from the seed alone: whatever the entropy device would
deliver and whatever the storage of the generator holds later, the run does not
read the entropy device, and every generator it constructs is seeded with the
seed. -/
theorem c3_positive_seed_constructs_generator (X : Collab Mat Res Tal Gen Val Sc)
    (argv0 : String) (steps : List Getopt) (input : Option String) (o : Settings)
    (hopt : optLoop argv0 ⟨0, 0, 0⟩ steps = .ok o) (hseed : 0 < o.seed) (rd : Nat)
    (stale : Nat → Gen → Gen) :
    (main X rd stale argv0 steps input).trace.any Event.isEntropy = false
      ∧ ∀ s ∈ seeds (main X rd stale argv0 steps input).trace,
          s = o.seed.toNat % 4294967296 := by
  refine ⟨entropy_main X rd stale argv0 steps input o hopt hseed, ?_⟩
  intro s hs
  rcases seeds_main X rd stale argv0 steps input o hopt with h | h
  · rw [h] at hs; simp at hs
  · rw [h, makeR_seeded X rd o hseed] at hs
    simpa [seeds] using hs

/-- C4. A negative trial count never reaches the core.  For every run whose
options hold `-e` with a negative numeral (a `-` sign followed by digits) as
argument, `main` calls none of `readMAT`, `GS`, `sc2nwk`, `EP`, `addEP` and
writes nothing to standard output; and when the options before that `-e` are
accepted, `main` prints the banner, the message of option `-e` and the usage,
and returns -1. -/
theorem c4_negative_trial_count_rejected (X : Collab Mat Res Tal Gen Val Sc) (rd : Nat)
    (stale : Nat → Gen → Gen) (argv0 : String) (pre post : List Getopt) (input : Option String) (arg : String)
    (oo : Char) (hneg : isNegativeNumeral arg = true) :
    (main X rd stale argv0 (pre ++ ⟨'e', arg, oo⟩ :: post) input).trace.all
        (fun e => !e.isCore) = true
      ∧ stdout (main X rd stale argv0 (pre ++ ⟨'e', arg, oo⟩ :: post) input).trace = ""
      ∧ ∀ o', optLoop argv0 ⟨0, 0, 0⟩ pre = .ok o' →
          main X rd stale argv0 (pre ++ ⟨'e', arg, oo⟩ :: post) input =
            ⟨[.print_banner, .cerr "Option -e requires an integer argument.\n\n",
              .print_usage argv0], .returned (-1)⟩ := by
  have href := renum_refuses_negative arg hneg
  refine ⟨?_, ?_, ?_⟩
  · obtain ⟨stop, hs⟩ := optLoop_ends argv0 pre post ⟨'e', arg, oo⟩ ⟨0, 0, 0⟩
      (fun o' => ⟨_, optStep_e_refused argv0 o' arg oo href⟩)
    simp only [main, hs]
    exact Stop.run_no_core argv0 stop
  · obtain ⟨stop, hs⟩ := optLoop_ends argv0 pre post ⟨'e', arg, oo⟩ ⟨0, 0, 0⟩
      (fun o' => ⟨_, optStep_e_refused argv0 o' arg oo href⟩)
    simp only [main, hs]
    exact (Stop.run_shows argv0 stop).2.2.2
  · intro o' hpre
    have hs := optLoop_refused_at argv0 pre post ⟨'e', arg, oo⟩ ⟨0, 0, 0⟩ o' _ hpre
      (optStep_e_refused argv0 o' arg oo href)
    simp only [main, hs]
    rfl

/-- C5, as amended.  `addEP` is never called with a trial count that is not
positive: in every run each call of `addEP` has `trials > 0`.  For a run that
reaches the tree output with option value `ep_num` (any 32-bit value `atoi` can
deliver): `addEP` is called only if `ep_num > 0`; it is called, once and with
`trials = ep_num`, if `0 < ep_num < 2^31 - 1` and none of the trials the run
starts throws; and if `ep_num ≤ 0`, `addEP` is not called and the text on
standard output is the base tree text and the line end. -/
theorem c5_addEP_only_with_positive_trials (X : Collab Mat Res Tal Gen Val Sc) (rd : Nat)
    (stale : Nat → Gen → Gen) (argv0 : String) (steps : List Getopt)
    (input : Option String) :
    (∀ c ∈ addEPCalls (main X rd stale argv0 steps input).trace, 0 < c.2.2.1)
      ∧ ∀ (o : Settings) (file : String) (W : Mat) (size : Int) (score : Sc) (gs : Res)
          (newick : String),
          optLoop argv0 ⟨0, 0, 0⟩ steps = .ok o → input = some file → X.fail file = false →
          X.readMAT file = some (W, size) → X.transitivity W size = some score →
          X.GS W size = some gs → X.sc2nwk gs size = some newick →
          (addEPCalls (main X rd stale argv0 steps input).trace ≠ [] → 0 < o.ep_num)
          ∧ (0 < o.ep_num → o.ep_num < 2147483647 →
              (∀ c ∈ epCalls (main X rd stale argv0 steps input).trace,
                (c.outcome X stale).1 ≠ none) →
              ∃ ep, addEPCalls (main X rd stale argv0 steps input).trace
                = [(newick, ep, o.ep_num, size)])
          ∧ (¬ 0 < o.ep_num →
              addEPCalls (main X rd stale argv0 steps input).trace = []
              ∧ stdout (main X rd stale argv0 steps input).trace = newick ++ "\n") := by
  constructor
  · rcases main_cases X stale rd argv0 steps input with hq | ⟨o, file, W, size, score, gs,
      newick, hopt, hin, hfile, hmat, hsc, hgs, hnwk⟩
    · rw [hq.2.1]; simp
    · subst hin
      have hs := main_reaches_output_shows X stale rd argv0 steps file o W size score gs newick
        hopt hfile hmat hsc hgs hnwk
      rw [hs.2.1, addEPCalls_epStage]
      intro c hc
      by_cases hk : 0 < o.ep_num
      · rw [if_pos hk] at hc
        cases hl : (epLoop X stale o W size o.ep_num.toNat 1 X.empty (makeR X rd o).2).2 with
        | thrown => rw [hl] at hc; simp at hc
        | overflow => rw [hl] at hc; simp at hc
        | exit ep mt =>
          rw [hl] at hc
          simp only [List.mem_singleton] at hc
          rw [hc]; exact hk
      · rw [if_neg hk] at hc; simp at hc
  · intro o file W size score gs newick hopt hin hfile hmat hsc hgs hnwk
    subst hin
    have hs := main_reaches_output_shows X stale rd argv0 steps file o W size score gs newick
      hopt hfile hmat hsc hgs hnwk
    rw [hs.1, hs.2.1, hs.2.2.2.1, epCalls_epStage, addEPCalls_epStage, stdout_epStage]
    refine ⟨?_, ?_, ?_⟩
    · intro hne
      by_contra hk
      rw [if_neg hk] at hne
      exact hne rfl
    · intro hk hb hret
      rw [if_pos hk] at hret
      obtain ⟨epK, mtK, hl⟩ :=
        epLoop_returns X stale o W size o.ep_num.toNat 1 X.empty (makeR X rd o).2 hret
          (by omega)
      exact ⟨epK, by simp only [hk, if_true, hl]⟩
    · intro hk
      simp only [hk, if_false, and_self]

/-- C7. A trial that throws ends the run: in every run, if the trial started by
the `i`-th call of `EP` throws, that call is the last call of `EP`, `addEP` is
not called, nothing is written to standard output and the run is aborted.  If
the base clustering `GS` throws, the run is aborted right after the call of
`GS`: neither `sc2nwk`, `EP` nor `addEP` is called and nothing is written to
standard output. -/
theorem c7_failed_trial_aborts_run (X : Collab Mat Res Tal Gen Val Sc) (rd : Nat)
    (stale : Nat → Gen → Gen) (argv0 : String) (steps : List Getopt) (input : Option String) :
    (∀ (i : Nat) (c : EPCall Mat Tal Gen),
        (epCalls (main X rd stale argv0 steps input).trace)[i]? = some c →
        (c.outcome X stale).1 = none →
        (epCalls (main X rd stale argv0 steps input).trace).length = i + 1
          ∧ addEPCalls (main X rd stale argv0 steps input).trace = []
          ∧ stdout (main X rd stale argv0 steps input).trace = ""
          ∧ (main X rd stale argv0 steps input).status = .aborted)
      ∧ ∀ (o : Settings) (file : String) (W : Mat) (size : Int) (score : Sc),
          optLoop argv0 ⟨0, 0, 0⟩ steps = .ok o → input = some file → X.fail file = false →
          X.readMAT file = some (W, size) → X.transitivity W size = some score →
          X.GS W size = none →
          main X rd stale argv0 steps input =
              ⟨[.readMAT file, .transitivity W size]
                ++ settingsText X.show_score o file size score
                ++ diag o [.cerr "-GS method\n  executing...\r"] ++ [.GS W size], .aborted⟩
            ∧ epCalls (main X rd stale argv0 steps input).trace = []
            ∧ addEPCalls (main X rd stale argv0 steps input).trace = []
            ∧ stdout (main X rd stale argv0 steps input).trace = "" := by
  constructor
  · intro i c hc hthrow
    rcases main_cases X stale rd argv0 steps input with hq | ⟨o, file, W, size, score, gs, newick,
      hopt, hin, hfile, hmat, hsc, hgs, hnwk⟩
    · rw [hq.1] at hc; simp at hc
    · subst hin
      have hs := main_reaches_output_shows X stale rd argv0 steps file o W size score gs newick hopt
        hfile hmat hsc hgs hnwk
      rw [hs.1, epCalls_epStage] at hc
      rw [hs.1, hs.2.1, hs.2.2.2.1, hs.2.2.2.2, epCalls_epStage, addEPCalls_epStage,
        stdout_epStage, status_epStage]
      by_cases hk : 0 < o.ep_num
      · simp only [hk, if_true] at hc ⊢
        have hl := epLoop_throw_last X stale o W size _ _ _ _ i c hc hthrow
        simp only [hl.1, hl.2, and_self]
      · rw [if_neg hk] at hc; simp at hc
  · intro o file W size score hopt hin hfile hmat hsc hgs
    subst hin
    have hrun := main_GS_throws X stale rd argv0 steps file o W size score hopt hfile hmat hsc hgs
    rcases main_cases X stale rd argv0 steps (some file) with hq | ⟨o', file', W', size', score', gs,
      newick, _, hin, _, hmat', _, hgs', _⟩
    · exact ⟨hrun, hq.1, hq.2.1, hq.2.2.2⟩
    · cases hin
      rw [hmat] at hmat'
      cases hmat'
      rw [hgs] at hgs'
      cases hgs'

/-- C9, as amended.  Once the options before it are accepted, an `-e` whose
argument is empty or holds a character that is neither a decimal digit nor a
dot, and an `-e` without argument, make `main` print the banner, the message
"Option -e requires an integer argument." and the usage, and return -1 with no
file read and no clustering; and an `-e` whose argument is a decimal numeral
below `2^31` sets `ep_num` to the number the numeral denotes. -/
theorem c9_option_e_argument_check (X : Collab Mat Res Tal Gen Val Sc) (rd : Nat)
    (stale : Nat → Gen → Gen) (argv0 : String) (pre post : List Getopt) (input : Option String) (o' : Settings)
    (oo : Char) (hpre : optLoop argv0 ⟨0, 0, 0⟩ pre = .ok o') :
    (∀ arg : String,
        (arg.toList = [] ∨ ∃ c ∈ arg.toList, c.isDigit = false ∧ c ≠ '.') →
        main X rd stale argv0 (pre ++ ⟨'e', arg, oo⟩ :: post) input =
          ⟨[.print_banner, .cerr "Option -e requires an integer argument.\n\n",
            .print_usage argv0], .returned (-1)⟩)
      ∧ (∀ arg : String,
          main X rd stale argv0 (pre ++ ⟨'?', arg, 'e'⟩ :: post) input =
            ⟨[.print_banner, .cerr "Option -e requires an integer argument.\n\n",
              .print_usage argv0], .returned (-1)⟩)
      ∧ ∀ arg : String, isDecimalNumeral arg = true → numeralValue arg < 2147483648 →
          optLoop argv0 ⟨0, 0, 0⟩ (pre ++ [⟨'e', arg, oo⟩])
            = .ok { o' with ep_num := (numeralValue arg : Int) } := by
  refine ⟨?_, ?_, ?_⟩
  · intro arg harg
    have hs := optLoop_refused_at argv0 pre post ⟨'e', arg, oo⟩ ⟨0, 0, 0⟩ o' _ hpre
      (optStep_e_refused argv0 o' arg oo (renum_refuses arg harg))
    simp only [main, hs]
    rfl
  · intro arg
    have hs := optLoop_refused_at argv0 pre post ⟨'?', arg, 'e'⟩ ⟨0, 0, 0⟩ o' _ hpre
      (optStep_e_missing argv0 o' arg)
    simp only [main, hs]
    rfl
  · intro arg hnum hv
    have hstep := optStep_e_accepted argv0 o' arg oo (renum_accepts_numeral arg hnum)
    rw [atoi_numeral arg hnum hv] at hstep
    exact optLoop_accepted_at argv0 pre ⟨'e', arg, oo⟩ ⟨0, 0, 0⟩ o' _ hpre hstep

/-- C10, as amended.  With the clustering core modelled from the
specification, a valid matrix of size 1, `ep_num < 2^31 - 1` and no trial of
the run throwing, the text on standard output is the base tree text `1;` and
the line end, and `main` returns 0. -/
theorem c10_single_sequence_tree {Mat Gen Val Sc : Type} (valid : Mat → Bool)
    (part : Mat → List Nat → List Nat × List Nat)
    (X : Collab Mat BinaryTree (List Nat → Nat) Gen Val Sc) (rd : Nat)
    (stale : Nat → Gen → Gen) (argv0 : String) (steps : List Getopt) (file : String)
    (o : Settings) (W : Mat) (score : Sc)
    (hopt : optLoop argv0 ⟨0, 0, 0⟩ steps = .ok o) (hb : o.ep_num < 2147483647)
    (hfile : X.fail file = false)
    (hmat : X.readMAT file = some (W, 1)) (hsc : X.transitivity W 1 = some score)
    (hvalid : valid W = true)
    (hret : ∀ c ∈ epCalls (main (specCollab valid part X) rd stale argv0 steps
      (some file)).trace, (c.outcome (specCollab valid part X) stale).1 ≠ none) :
    (specCollab valid part X).GS W 1 = some (.leaf 0)
      ∧ (specCollab valid part X).sc2nwk (.leaf 0) 1 = some "1;"
      ∧ stdout (main (specCollab valid part X) rd stale argv0 steps (some file)).trace
          = "1;\n"
      ∧ (main (specCollab valid part X) rd stale argv0 steps (some file)).status
          = .returned 0 := by
  have hgs : (specCollab valid part X).GS W 1 = some (.leaf 0) := by
    show specGS valid part W 1 = _
    simp [specGS, hvalid]
  have hnwk : (specCollab valid part X).sc2nwk (.leaf 0) 1 = some "1;" := rfl
  have hann : ∀ (tally : List Nat → Nat) (k : Int),
      (specCollab valid part X).addEP "1;" tally k 1 = some "1;" := fun _ _ => rfl
  have hs := main_reaches_output_shows (specCollab valid part X) stale rd argv0 steps file o W
    1 score (.leaf 0) "1;" hopt hfile hmat hsc hgs hnwk
  rw [hs.1, epCalls_epStage] at hret
  refine ⟨hgs, hnwk, ?_, ?_⟩
  · rw [hs.2.2.2.1, stdout_epStage]
    by_cases hk : 0 < o.ep_num
    · rw [if_pos hk] at hret
      obtain ⟨epK, mtK, hl⟩ := epLoop_returns (specCollab valid part X) stale o W 1
        o.ep_num.toNat 1 (specCollab valid part X).empty
        (makeR (specCollab valid part X) rd o).2 hret (by omega)
      simp only [hk, if_true, hl, hann]
      rfl
    · simp only [hk, if_false]
      rfl
  · rw [hs.2.2.2.2, status_epStage]
    by_cases hk : 0 < o.ep_num
    · rw [if_pos hk] at hret
      obtain ⟨epK, mtK, hl⟩ := epLoop_returns (specCollab valid part X) stale o W 1
        o.ep_num.toNat 1 (specCollab valid part X).empty
        (makeR (specCollab valid part X) rd o).2 hret (by omega)
      simp only [hk, if_true, hl, hann]
    · simp only [hk, if_false]

end Claims

/-! ## The claims on concrete runs

The runs below use the sample collaborators, the value 5 for the entropy device
and, unless said otherwise, a generator storage that is left alone (`intact`). -/

/-- C1 at `gs -s -e 0 in.mat` with the sample collaborators. -/
theorem c1_zero_trials_write_base_tree_witness :
    optLoop "gs" ⟨0, 0, 0⟩ [⟨'s', "", ' '⟩, ⟨'e', "0", ' '⟩] = .ok ⟨1, 0, 0⟩
      ∧ (sample 0).fail "in.mat" = false
      ∧ (sample 0).readMAT "in.mat" = some (7, 3)
      ∧ (sample 0).sc2nwk 8 3 = some "((1,2),3);"
      ∧ epCalls (main (sample 0) 5 intact "gs" [⟨'s', "", ' '⟩, ⟨'e', "0", ' '⟩]
          (some "in.mat")).trace = []
      ∧ addEPCalls (main (sample 0) 5 intact "gs" [⟨'s', "", ' '⟩, ⟨'e', "0", ' '⟩]
          (some "in.mat")).trace = []
      ∧ stdout (main (sample 0) 5 intact "gs" [⟨'s', "", ' '⟩, ⟨'e', "0", ' '⟩]
          (some "in.mat")).trace = "((1,2),3);\n"
      ∧ (main (sample 0) 5 intact "gs" [⟨'s', "", ' '⟩, ⟨'e', "0", ' '⟩]
          (some "in.mat")).status = .returned 0 :=
  ⟨rfl, rfl, rfl, rfl,
    c1_zero_trials_write_base_tree (sample 0) 5 intact "gs" [⟨'s', "", ' '⟩, ⟨'e', "0", ' '⟩]
      "in.mat" ⟨1, 0, 0⟩ 7 3 8 8 "((1,2),3);" rfl (Or.inr rfl) rfl rfl rfl rfl rfl⟩

/-- C2 as amended at `gs -e 2 in.mat` with the sample collaborators, none of
whose trials throws: two calls of `EP`, and `addEP` called on the tally the
second left. -/
theorem c2_trials_share_one_tally_witness :
    optLoop "gs" ⟨0, 0, 0⟩ [⟨'e', "2", ' '⟩] = .ok ⟨0, 2, 0⟩
      ∧ (0 : Int) < 2 ∧ (2 : Int) < 2147483647
      ∧ ((epCalls (main (sample 0) 5 intact "gs" [⟨'e', "2", ' '⟩]
          (some "in.mat")).trace).length : Int) = 2
      ∧ addEPCalls (main (sample 0) 5 intact "gs" [⟨'e', "2", ' '⟩] (some "in.mat")).trace
          = [("((1,2),3);", [5, 6], 2, 3)]
      ∧ stdout (main (sample 0) 5 intact "gs" [⟨'e', "2", ' '⟩] (some "in.mat")).trace
          = "((1,2),3);[5, 6]/2\n" :=
  ⟨rfl, by decide, by decide,
    (c2_trials_share_one_tally (sample 0) 5 intact "gs" [⟨'e', "2", ' '⟩] "in.mat" ⟨0, 2, 0⟩
      7 3 8 8 "((1,2),3);" rfl (by decide) (by decide) rfl rfl rfl rfl rfl
      (fun c _ => by simp [EPCall.outcome, sample, sampleEP, runTrial])).1,
    rfl, rfl⟩

/-- C2 as stated fails at `gs -e 2147483647 in.mat`: after the trial with
`n = 2^31 - 1` the increment `n++` overflows `int`, the loop is not left, `addEP`
is never called and nothing is written to standard output. -/
theorem c2_counter_overflows_at_int_max :
    optLoop "gs" ⟨0, 0, 0⟩ [⟨'e', "2147483647", ' '⟩] = .ok ⟨0, 2147483647, 0⟩
      ∧ addEPCalls (main (sample 0) 5 intact "gs" [⟨'e', "2147483647", ' '⟩]
          (some "in.mat")).trace = []
      ∧ stdout (main (sample 0) 5 intact "gs" [⟨'e', "2147483647", ' '⟩]
          (some "in.mat")).trace = ""
      ∧ (main (sample 0) 5 intact "gs" [⟨'e', "2147483647", ' '⟩]
          (some "in.mat")).status = .overflow :=
  ⟨by rfl,
    main_overflows (sample 0) intact 5 "gs" [⟨'e', "2147483647", ' '⟩] "in.mat"
      ⟨0, 2147483647, 0⟩ 7 3 8 8 "((1,2),3);" (by rfl) rfl rfl rfl rfl rfl rfl
      (fun ep mt => by simp [sample, sampleEP, runTrial])⟩

/-- C3 as amended at `gs -r 7 -e 2 in.mat`: the entropy device is not read and
the generator is constructed with the seed 7. -/
theorem c3_positive_seed_constructs_generator_witness :
    optLoop "gs" ⟨0, 0, 0⟩ [⟨'r', "7", ' '⟩, ⟨'e', "2", ' '⟩] = .ok ⟨0, 2, 7⟩
      ∧ (0 : Int) < 7
      ∧ (main (sample 0) 5 intact "gs" [⟨'r', "7", ' '⟩, ⟨'e', "2", ' '⟩]
          (some "in.mat")).trace.any Event.isEntropy = false
      ∧ seeds (main (sample 0) 5 intact "gs" [⟨'r', "7", ' '⟩, ⟨'e', "2", ' '⟩]
          (some "in.mat")).trace = [7] :=
  ⟨rfl, by decide,
    (c3_positive_seed_constructs_generator (sample 0) "gs" [⟨'r', "7", ' '⟩, ⟨'e', "2", ' '⟩]
      (some "in.mat") ⟨0, 2, 7⟩ rfl (by decide) 5 intact).1,
    rfl⟩

/-- C3 as stated fails at `gs -r 0 -e 1 in.mat`: the seed 0 passes the option
check, yet the generator is constructed from the entropy device, and two runs
that get the values 1 and 2 from it construct different generators and write
different trees. -/
theorem c3_seed_zero_reads_entropy_device :
    renum "0" = true
      ∧ optLoop "gs" ⟨0, 0, 0⟩ [⟨'r', "0", ' '⟩, ⟨'e', "1", ' '⟩] = .ok ⟨0, 1, 0⟩
      ∧ (main (sample 0) 1 intact "gs" [⟨'r', "0", ' '⟩, ⟨'e', "1", ' '⟩]
          (some "in.mat")).trace.any Event.isEntropy = true
      ∧ seeds (main (sample 0) 1 intact "gs" [⟨'r', "0", ' '⟩, ⟨'e', "1", ' '⟩]
          (some "in.mat")).trace = [1]
      ∧ seeds (main (sample 0) 2 intact "gs" [⟨'r', "0", ' '⟩, ⟨'e', "1", ' '⟩]
          (some "in.mat")).trace = [2]
      ∧ stdout (main (sample 0) 1 intact "gs" [⟨'r', "0", ' '⟩, ⟨'e', "1", ' '⟩]
          (some "in.mat")).trace = "((1,2),3);[1]/1\n"
      ∧ stdout (main (sample 0) 2 intact "gs" [⟨'r', "0", ' '⟩, ⟨'e', "1", ' '⟩]
          (some "in.mat")).trace = "((1,2),3);[2]/1\n" :=
  ⟨rfl, rfl, rfl, rfl, rfl, rfl, rfl⟩

/-- C4 at `gs -s -e -5 in.mat`. -/
theorem c4_negative_trial_count_rejected_witness :
    isNegativeNumeral "-5" = true
      ∧ optLoop "gs" ⟨0, 0, 0⟩ [⟨'s', "", ' '⟩] = .ok ⟨1, 0, 0⟩
      ∧ main (sample 0) 5 intact "gs" ([⟨'s', "", ' '⟩] ++ ⟨'e', "-5", ' '⟩ :: [])
          (some "in.mat")
          = ⟨[.print_banner, .cerr "Option -e requires an integer argument.\n\n",
              .print_usage "gs"], .returned (-1)⟩ :=
  ⟨rfl, rfl,
    (c4_negative_trial_count_rejected (sample 0) 5 intact "gs" [⟨'s', "", ' '⟩] []
      (some "in.mat") "-5" ' ' rfl).2.2 ⟨1, 0, 0⟩ rfl⟩

/-- C5 as amended at `gs -e 4294967295 in.mat`: the argument passes the option
check, `atoi` delivers -1, `addEP` is not called and the base tree is written. -/
theorem c5_addEP_only_with_positive_trials_witness :
    renum "4294967295" = true
      ∧ optLoop "gs" ⟨0, 0, 0⟩ [⟨'e', "4294967295", ' '⟩] = .ok ⟨0, -1, 0⟩
      ∧ addEPCalls (main (sample 0) 5 intact "gs" [⟨'e', "4294967295", ' '⟩]
          (some "in.mat")).trace = []
      ∧ stdout (main (sample 0) 5 intact "gs" [⟨'e', "4294967295", ' '⟩]
          (some "in.mat")).trace = "((1,2),3);\n" :=
  ⟨rfl, by rfl,
    ((c5_addEP_only_with_positive_trials (sample 0) 5 intact "gs"
      [⟨'e', "4294967295", ' '⟩] (some "in.mat")).2 ⟨0, -1, 0⟩ "in.mat" 7 3 8 8
      "((1,2),3);" (by rfl) rfl rfl rfl rfl rfl rfl).2.2 (by decide)⟩

/-- C5 as stated fails at `gs -e 3 in.mat` with a second trial that throws, and
at `gs -e 3 missing.mat`: `ep_num = 3 > 0`, yet `addEP` is not called. -/
theorem c5_positive_trials_without_addEP :
    optLoop "gs" ⟨0, 0, 0⟩ [⟨'e', "3", ' '⟩] = .ok ⟨0, 3, 0⟩
      ∧ (0 : Int) < 3
      ∧ addEPCalls (main (sample 2) 5 intact "gs" [⟨'e', "3", ' '⟩]
          (some "in.mat")).trace = []
      ∧ (main (sample 2) 5 intact "gs" [⟨'e', "3", ' '⟩] (some "in.mat")).status = .aborted
      ∧ addEPCalls (main (sample 0) 5 intact "gs" [⟨'e', "3", ' '⟩]
          (some "missing.mat")).trace = []
      ∧ (main (sample 0) 5 intact "gs" [⟨'e', "3", ' '⟩] (some "missing.mat")).status
          = .returned (-1) :=
  ⟨rfl, by decide, rfl, rfl, rfl, rfl⟩

/-- C6.  The generator behind `R` is read after the end of its block, so what
the trials draw is one stream only while its storage is left alone.  At
`gs -r 7 -e 2 in.mat` with the sample collaborators: when every read finds what
was last written, the two values drawn are the first two of the stream of the
generator seeded with 7; when the storage is overwritten before the second
read, the second trial does not start from the state the first one left and
the values drawn are not that stream. -/
theorem c6_generator_read_after_its_block :
    stream (sample 0).urd ((sample 0).mt19937 7) 2 = [7, 8]
      ∧ drawn (main (sample 0) 5 intact "gs" [⟨'r', "7", ' '⟩, ⟨'e', "2", ' '⟩]
          (some "in.mat")).trace = [7, 8]
      ∧ drawn (main (sample 0) 5 (overwritten 1 0) "gs" [⟨'r', "7", ' '⟩, ⟨'e', "2", ' '⟩]
          (some "in.mat")).trace = [7, 0] :=
  ⟨rfl, rfl, rfl⟩

/-- C7 at `gs -e 3 in.mat` with a second trial that throws: two calls of `EP`,
no call of `addEP`, no text on standard output, the run aborted. -/
theorem c7_failed_trial_aborts_run_witness :
    (epCalls (main (sample 2) 5 intact "gs" [⟨'e', "3", ' '⟩] (some "in.mat")).trace)[1]?
        = some ⟨7, [5], ⟨1, 6⟩, 3⟩
      ∧ ((⟨7, [5], ⟨1, 6⟩, 3⟩ : EPCall Nat (List Nat) Nat).outcome (sample 2) intact).1 = none
      ∧ (epCalls (main (sample 2) 5 intact "gs" [⟨'e', "3", ' '⟩]
          (some "in.mat")).trace).length = 1 + 1
      ∧ addEPCalls (main (sample 2) 5 intact "gs" [⟨'e', "3", ' '⟩] (some "in.mat")).trace
          = []
      ∧ stdout (main (sample 2) 5 intact "gs" [⟨'e', "3", ' '⟩] (some "in.mat")).trace = ""
      ∧ (main (sample 2) 5 intact "gs" [⟨'e', "3", ' '⟩] (some "in.mat")).status
          = .aborted :=
  ⟨rfl, rfl,
    (c7_failed_trial_aborts_run (sample 2) 5 intact "gs" [⟨'e', "3", ' '⟩]
      (some "in.mat")).1 1 ⟨7, [5], ⟨1, 6⟩, 3⟩ rfl rfl⟩

/-- C9 as amended at `gs -s -e hundred in.mat` and `gs -s -e 12 in.mat`. -/
theorem c9_option_e_argument_check_witness :
    optLoop "gs" ⟨0, 0, 0⟩ [⟨'s', "", ' '⟩] = .ok ⟨1, 0, 0⟩
      ∧ main (sample 0) 5 intact "gs" ([⟨'s', "", ' '⟩] ++ ⟨'e', "hundred", ' '⟩ :: [])
          (some "in.mat")
          = ⟨[.print_banner, .cerr "Option -e requires an integer argument.\n\n",
              .print_usage "gs"], .returned (-1)⟩
      ∧ isDecimalNumeral "12" = true
      ∧ numeralValue "12" = 12
      ∧ optLoop "gs" ⟨0, 0, 0⟩ ([⟨'s', "", ' '⟩] ++ [⟨'e', "12", ' '⟩]) = .ok ⟨1, 12, 0⟩ :=
  ⟨rfl,
    (c9_option_e_argument_check (sample 0) 5 intact "gs" [⟨'s', "", ' '⟩] [] (some "in.mat")
      ⟨1, 0, 0⟩ ' ' rfl).1 "hundred" (Or.inr ⟨'h', by decide, by decide, by decide⟩),
    rfl, rfl,
    (c9_option_e_argument_check (sample 0) 5 intact "gs" [⟨'s', "", ' '⟩] [] (some "in.mat")
      ⟨1, 0, 0⟩ ' ' rfl).2.2 "12" rfl (by decide)⟩

/-- C9 as stated fails at `gs -e 1.5 in.mat` and `gs -e 4294967297 in.mat`:
`1.5` is not a decimal integer numeral, yet it passes the option check, `ep_num`
becomes 1, the matrix is read and one trial is run; and the numeral `4294967297`
is accepted with `ep_num = 1`, not the number it denotes. -/
theorem c9_dotted_argument_accepted :
    isDecimalNumeral "1.5" = false
      ∧ optLoop "gs" ⟨0, 0, 0⟩ [⟨'e', "1.5", ' '⟩] = .ok ⟨0, 1, 0⟩
      ∧ (main (sample 0) 5 intact "gs" [⟨'e', "1.5", ' '⟩] (some "in.mat")).status
          = .returned 0
      ∧ stdout (main (sample 0) 5 intact "gs" [⟨'e', "1.5", ' '⟩] (some "in.mat")).trace
          = "((1,2),3);[5]/1\n"
      ∧ isDecimalNumeral "4294967297" = true
      ∧ numeralValue "4294967297" = 4294967297
      ∧ optLoop "gs" ⟨0, 0, 0⟩ [⟨'e', "4294967297", ' '⟩] = .ok ⟨0, 1, 0⟩ :=
  ⟨rfl, rfl, rfl, rfl, rfl, rfl, rfl⟩

/-- C10 as amended at `gs -e 3 in.mat` on a file of one sequence, with the core
modelled from the specification. -/
theorem c10_single_sequence_tree_witness :
    optLoop "gs" ⟨0, 0, 0⟩ [⟨'e', "3", ' '⟩] = .ok ⟨0, 3, 0⟩
      ∧ (3 : Int) < 2147483647
      ∧ sampleReader.readMAT "in.mat" = some (7, 1)
      ∧ stdout (main (specCollab (fun _ => true) (fun _ C => (C.take 1, C.drop 1))
          sampleReader) 5 intact "gs" [⟨'e', "3", ' '⟩] (some "in.mat")).trace = "1;\n"
      ∧ (main (specCollab (fun _ => true) (fun _ C => (C.take 1, C.drop 1))
          sampleReader) 5 intact "gs" [⟨'e', "3", ' '⟩] (some "in.mat")).status
          = .returned 0 :=
  ⟨rfl, by decide, rfl,
    (c10_single_sequence_tree (fun _ => true) (fun _ C => (C.take 1, C.drop 1)) sampleReader 5
      intact "gs" [⟨'e', "3", ' '⟩] "in.mat" ⟨0, 3, 0⟩ 7 1 rfl (by decide) rfl rfl rfl rfl
      (fun c _ => by simp [EPCall.outcome, specCollab, sampleReader, runTrial])).2.2⟩

/-- C10 as stated fails at `gs -e 2147483647 in.mat` on a file of one sequence:
the loop counter overflows and nothing is written to standard output. -/
theorem c10_counter_overflows_at_int_max :
    optLoop "gs" ⟨0, 0, 0⟩ [⟨'e', "2147483647", ' '⟩] = .ok ⟨0, 2147483647, 0⟩
      ∧ sampleReader.readMAT "in.mat" = some (7, 1)
      ∧ stdout (main (specCollab (fun _ => true) (fun _ C => (C.take 1, C.drop 1))
          sampleReader) 5 intact "gs" [⟨'e', "2147483647", ' '⟩] (some "in.mat")).trace = ""
      ∧ (main (specCollab (fun _ => true) (fun _ C => (C.take 1, C.drop 1))
          sampleReader) 5 intact "gs" [⟨'e', "2147483647", ' '⟩] (some "in.mat")).status
          = .overflow :=
  ⟨by rfl, rfl,
    (main_overflows (specCollab (fun _ => true) (fun _ C => (C.take 1, C.drop 1))
      sampleReader) intact 5 "gs" [⟨'e', "2147483647", ' '⟩] "in.mat" ⟨0, 2147483647, 0⟩ 7 1
      1 (.leaf 0) "1;" (by rfl) rfl rfl rfl rfl rfl rfl
      (fun ep mt => by simp [specCollab, sampleReader, runTrial])).2⟩

end GSM
